import Mathlib

set_option maxRecDepth 8000

/-!
Verification of the reqline repository (a curl-like statement parser plus
HTTP request executor).  Definitions below are a shallow embedding of the
JavaScript sources:

  * src/services/reqline/parser.js   (statement grammar parser, proxy service)
  * src/services/reqline/executor.js (request executor and cookie jar)

JavaScript objects are embedded as association lists in insertion order,
JavaScript strings as Lean strings (lists of characters), machine state
such as the file system and the network as explicit function parameters.
The JSON.parse builtin and WHATWG URL validity are modelled by executable
Lean functions covering the fragment of their behavior these sources
exercise; each model documents its simplifications at its definition.
-/

/-- The opening curly brace character, written via its code point so the
source never contains a literal brace outside strings. -/
def lbrace : Char := Char.ofNat 123

/-- The closing curly brace character. -/
def rbrace : Char := Char.ofNat 125

/-- JSON values as produced by the JSON.parse builtin.  Objects keep their
properties as an association list in insertion order, matching JavaScript
property order for the string keys used here.  Numeric literals are
restricted to integers, the only numerals this repository's statements,
tests and spec examples use. -/
inductive Json where
  | null : Json
  | bool (b : Bool) : Json
  | num (n : Int) : Json
  | str (s : String) : Json
  | arr (elems : List Json) : Json
  | obj (entries : List (String × Json)) : Json

/-- First value bound to a key in a JavaScript-object association list. -/
def vlookup : List (String × Json) → String → Option Json
  | [], _ => none
  | (k, v) :: rest, key => if k = key then some v else vlookup rest key

/-- JavaScript property assignment on an object embedded as an association
list: an existing key keeps its position and gets the new value, an unseen
key is appended.  This is the semantics of setting one property and hence
of copying one property during object spread.  (JavaScript object keys
are unique, so replacing the first occurrence is exact.) -/
def insertObj : List (String × Json) → String × Json → List (String × Json)
  | [], e => [e]
  | p :: rest, e => if p.1 = e.1 then e :: rest else p :: insertObj rest e

/-- JavaScript object spread of b into a, as in the source's
shallow-merge of repeated HEADERS/QUERY/BODY segments: every property of b
is assigned onto a in order. -/
def mergeObj (a b : List (String × Json)) : List (String × Json) :=
  b.foldl insertObj a

/-- JavaScript property deletion (the executor deletes Content-Type before
sending multipart payloads). -/
def eraseObj (l : List (String × Json)) (k : String) : List (String × Json) :=
  l.filter (fun p => ¬ p.1 = k)

/-- Spreading a decoded JSON value into an accumulated object.  The
parser's typeof check lets both objects and arrays through (arrays are
typeof object in JavaScript); spreading an array contributes its elements
under their decimal index keys, exactly as JavaScript object spread does. -/
def spreadInto (l : List (String × Json)) : Json → List (String × Json)
  | .obj o => mergeObj l o
  | .arr xs => mergeObj l (xs.enum.map (fun p => (toString p.1, p.2)))
  | _ => l

/-- Whitespace recognised by the JSON grammar and (on the inputs this
repository handles, which contain no exotic Unicode spaces) by the
JavaScript trim builtin. -/
def isWsChar (c : Char) : Bool :=
  c = ' ' || c = '\t' || c = '\n' || c = '\r'

/-- Drop leading whitespace. -/
def dropLeadingWs (cs : List Char) : List Char :=
  cs.dropWhile isWsChar

/-- Drop trailing whitespace. -/
def dropTrailingWs (cs : List Char) : List Char :=
  (cs.reverse.dropWhile isWsChar).reverse

/-- Characters of a string with surrounding whitespace removed. -/
def trimChars (cs : List Char) : List Char :=
  dropLeadingWs (dropTrailingWs cs)

/-- Model of the JavaScript trim builtin on the strings this repository
processes. -/
def jsTrim (s : String) : String :=
  ⟨trimChars s.data⟩

/-- ASCII upper-casing, the behavior of the toUpperCase builtin on the
ASCII keywords and method names the grammar checks. -/
def jsToUpper (s : String) : String :=
  ⟨s.data.map Char.toUpper⟩

/-- ASCII lower-casing (toLowerCase on methods and cookie attribute
names). -/
def jsToLower (s : String) : String :=
  ⟨s.data.map Char.toLower⟩

/-- Whether the pattern list is an initial segment of the text list. -/
def begWith : List Char → List Char → Bool
  | [], _ => true
  | _ :: _, [] => false
  | p :: ps, c :: cs => p = c && begWith ps cs

/-- Model of the startsWith string builtin. -/
def jsStartsWith (s pre : String) : Bool :=
  begWith pre.data s.data

/-- Whether the first list occurs contiguously anywhere in the second. -/
def hasSub (needle : List Char) : List Char → Bool
  | [] => begWith needle []
  | c :: cs => begWith needle (c :: cs) || hasSub needle cs

/-- Model of the includes string builtin (substring containment). -/
def strContains (hay needle : String) : Bool :=
  hasSub needle.data hay.data

/-- Split on a separator character keeping empty pieces, the behavior of
the JavaScript split builtin with a one-character separator (the executor
splits cookie headers on semicolons and equals signs).  The result is
never empty. -/
def jsSplitAux (sep : Char) : List Char → List Char → List String
  | cur, [] => [⟨cur.reverse⟩]
  | cur, c :: rest =>
    if c = sep then ⟨cur.reverse⟩ :: jsSplitAux sep [] rest
    else jsSplitAux sep (c :: cur) rest

/-- Model of the split builtin with a one-character separator. -/
def jsSplit (sep : Char) (s : String) : List String :=
  jsSplitAux sep [] s.data

/-- Model of parseInt(x, 10): leading whitespace skipped, optional sign,
then the longest digit prefix; none when no digit is found (NaN), as for
a missing attribute value. -/
def jsParseInt : Option String → Option Int
  | none => none
  | some s =>
    let cs := dropLeadingWs s.data
    let (sign, cs) : Int × List Char :=
      match cs with
      | '-' :: rest => (-1, rest)
      | '+' :: rest => (1, rest)
      | _ => (1, cs)
    let ds := cs.takeWhile Char.isDigit
    if ds.isEmpty then none
    else some (sign * (ds.foldl (fun acc c => acc * 10 + (c.toNat - 48)) 0 : Nat))

/-- Decode the body of a JSON string literal after the opening quote,
returning the decoded characters and the input following the closing
quote.  The escapes are the simple JSON escapes; unicode escapes never
occur in this repository's statements and make decoding fail. -/
def parseJsonStringBody : List Char → Option (List Char × List Char)
  | [] => none
  | '"' :: rest => some ([], rest)
  | '\\' :: c :: rest =>
    let dec : Option Char :=
      if c = '"' then some '"'
      else if c = '\\' then some '\\'
      else if c = '/' then some '/'
      else if c = 'n' then some '\n'
      else if c = 't' then some '\t'
      else if c = 'r' then some '\r'
      else if c = 'b' then some (Char.ofNat 8)
      else if c = 'f' then some (Char.ofNat 12)
      else none
    match dec with
    | none => none
    | some d =>
      match parseJsonStringBody rest with
      | none => none
      | some (s, r) => some (d :: s, r)
  | '\\' :: [] => none
  | c :: rest =>
    match parseJsonStringBody rest with
    | none => none
    | some (s, r) => some (c :: s, r)

/-- Decode a JSON integer literal (optional minus sign, digit run). -/
def parseJsonNum (cs : List Char) : Option (Int × List Char) :=
  let (neg, cs) : Bool × List Char :=
    match cs with
    | '-' :: rest => (true, rest)
    | _ => (false, cs)
  let ds := cs.takeWhile Char.isDigit
  if ds.isEmpty then none
  else
    let n : Nat := ds.foldl (fun acc c => acc * 10 + (c.toNat - 48)) 0
    some (if neg then -(n : Int) else (n : Int), cs.drop ds.length)

mutual

/-- Decode one JSON value, fuel-bounded.  Mirrors the JSON.parse grammar
on the literals this repository uses (objects, arrays, strings, integer
numbers, true, false, null). -/
def parseJsonVal : Nat → List Char → Option (Json × List Char)
  | 0, _ => none
  | fuel + 1, cs =>
    match dropLeadingWs cs with
    | [] => none
    | c :: rest =>
      if c = '"' then
        match parseJsonStringBody rest with
        | none => none
        | some (s, r) => some (.str ⟨s⟩, r)
      else if c = lbrace then
        match dropLeadingWs rest with
        | d :: r2 =>
          if d = rbrace then some (.obj [], r2)
          else parseJsonEntries fuel (d :: r2) []
        | [] => none
      else if c = '[' then
        match dropLeadingWs rest with
        | d :: r2 =>
          if d = ']' then some (.arr [], r2)
          else parseJsonElems fuel (d :: r2) []
        | [] => none
      else if c = 't' then
        match rest with
        | 'r' :: 'u' :: 'e' :: r => some (.bool true, r)
        | _ => none
      else if c = 'f' then
        match rest with
        | 'a' :: 'l' :: 's' :: 'e' :: r => some (.bool false, r)
        | _ => none
      else if c = 'n' then
        match rest with
        | 'u' :: 'l' :: 'l' :: r => some (.null, r)
        | _ => none
      else
        match parseJsonNum (c :: rest) with
        | none => none
        | some (n, r) => some (.num n, r)

/-- Decode the remaining key/value entries of a JSON object (positioned at
a key).  Duplicate keys follow JavaScript property assignment: the later
value wins at the first occurrence's position. -/
def parseJsonEntries : Nat → List Char → List (String × Json) →
    Option (Json × List Char)
  | 0, _, _ => none
  | fuel + 1, cs, acc =>
    match dropLeadingWs cs with
    | '"' :: rest =>
      match parseJsonStringBody rest with
      | none => none
      | some (k, r) =>
        match dropLeadingWs r with
        | ':' :: r2 =>
          match parseJsonVal fuel r2 with
          | none => none
          | some (v, r3) =>
            let acc := insertObj acc (⟨k⟩, v)
            match dropLeadingWs r3 with
            | ',' :: r4 => parseJsonEntries fuel r4 acc
            | d :: r4 => if d = rbrace then some (.obj acc, r4) else none
            | [] => none
        | _ => none
    | _ => none

/-- Decode the remaining elements of a JSON array (positioned at an
element). -/
def parseJsonElems : Nat → List Char → List Json → Option (Json × List Char)
  | 0, _, _ => none
  | fuel + 1, cs, acc =>
    match parseJsonVal fuel cs with
    | none => none
    | some (v, r) =>
      match dropLeadingWs r with
      | ',' :: r2 => parseJsonElems fuel r2 (acc ++ [v])
      | ']' :: r2 => some (.arr (acc ++ [v]), r2)
      | _ => none

end

/-- Model of the JSON.parse builtin on this repository's value literals:
decode one value and require only whitespace to remain; none models a
thrown SyntaxError. -/
def jsonParse (s : String) : Option Json :=
  match parseJsonVal (2 * s.data.length + 2) s.data with
  | some (v, rest) => if (dropLeadingWs rest).isEmpty then some v else none
  | none => none

/-- Host portion of an http(s) URL: the characters after the scheme
separator up to the first slash, colon, question mark or hash. -/
def urlHost (s : String) : String :=
  let afterScheme :=
    if jsStartsWith s "http://" then s.data.drop 7
    else if jsStartsWith s "https://" then s.data.drop 8
    else []
  ⟨afterScheme.takeWhile (fun c => ¬ (c = '/' || c = ':' || c = '?' || c = '#'))⟩

/-- Model of the WHATWG URL constructor's success, restricted to the
http and https URLs that appear throughout this repository: the scheme
must be http or https and the host nonempty.  (The browser URL class also
accepts other schemes; no statement in the repository or its tests uses
one, and the parser only ever receives http(s) URLs or plainly invalid
strings.) -/
def isValidUrl (s : String) : Bool :=
  (jsStartsWith s "http://" || jsStartsWith s "https://") && ¬ (urlHost s).isEmpty

/-- Model of pathname plus search of a parsed URL, used by the proxy to
rewrite the authority: everything from the first slash after the
authority, with any fragment removed, and a lone root path when the URL
has no path. -/
def urlPathAndSearch (s : String) : String :=
  let afterScheme :=
    if jsStartsWith s "http://" then s.data.drop 7
    else if jsStartsWith s "https://" then s.data.drop 8
    else s.data
  let rest := afterScheme.dropWhile (fun c => ¬ (c = '/' || c = '?' || c = '#'))
  let rest := rest.takeWhile (fun c => ¬ c = '#')
  match rest with
  | [] => "/"
  | '?' :: _ => "/" ++ ⟨rest⟩
  | _ => ⟨rest⟩

/-- Split on space runs, matching the source's splitBySpaces helper:
single-character scan collecting nonempty words. -/
def splitBySpacesAux : List Char → List Char → List String
  | cur, [] => if cur.isEmpty then [] else [⟨cur.reverse⟩]
  | cur, c :: rest =>
    if c = ' ' then
      if cur.isEmpty then splitBySpacesAux [] rest
      else ⟨cur.reverse⟩ :: splitBySpacesAux [] rest
    else splitBySpacesAux (c :: cur) rest

/-- The source's splitBySpaces helper. -/
def splitBySpaces (part : String) : List String :=
  splitBySpacesAux [] part.data

/-- Message of the missing-space-before-pipe error. -/
def beforePipeMsg : String := "Missing space before pipe delimiter"

/-- Message of the missing-space-after-pipe error. -/
def afterPipeMsg : String := "Missing space after pipe delimiter"

/-- Character scan of the source's splitByDelimiter: prev is the character
before the scan position (none at position zero).  At a pipe the character
before it must be a space unless the pipe starts the string, and the
character after it must be a space unless the pipe ends the string; both
violations abort immediately.  A well-spaced pipe pushes the trimmed
current part unconditionally and the scan skips the pipe and the space
after it.  The final part is pushed only when nonempty after trimming. -/
def sbdAux : Option Char → List Char → List Char → List String →
    Except String (List String)
  | _, [], cur, parts =>
    .ok (parts ++ (if (trimChars cur).isEmpty then [] else [⟨trimChars cur⟩]))
  | prev, c :: rest, cur, parts =>
    if c = '|' then
      if (match prev with | some p => p != ' ' | none => false) then
        .error beforePipeMsg
      else
        match rest with
        | [] => .ok (parts ++ [⟨trimChars cur⟩])
        | d :: rest2 =>
          if ¬ d = ' ' then .error afterPipeMsg
          else sbdAux (some ' ') rest2 [] (parts ++ [⟨trimChars cur⟩])
    else sbdAux (some c) rest (cur ++ [c]) parts

/-- The source's splitByDelimiter. -/
def splitByDelimiter (reqline : String) : Except String (List String) :=
  sbdAux none reqline.data [] []

/-- One parsed segment of the statement, the source's
type/value record returned by parsePart. -/
inductive ParsedPart where
  | httpPart (value : String)
  | urlPart (value : String)
  | headersPart (value : Json)
  | queryPart (value : Json)
  | bodyPart (value : Json)

/-- The source's parseHttpMethod: uppercase check first, then membership
in the supported verb set GET/POST. -/
def parseHttpMethod (value : String) : Except String ParsedPart :=
  if ¬ value = jsToUpper value then .error "HTTP method must be uppercase"
  else if ¬ (value = "GET" ∨ value = "POST") then
    .error "Invalid HTTP method. Only GET and POST are supported"
  else .ok (.httpPart value)

/-- The source's parseUrl: nonempty value, then URL constructor
validation. -/
def parseUrl (value : String) : Except String ParsedPart :=
  if jsTrim value = "" then .error "URL value cannot be empty"
  else if ¬ isValidUrl value then
    .error ("Invalid URL format: \"" ++ value ++ "\"")
  else .ok (.urlPart value)

/-- The source's parseJson: reject a blank value, decode with JSON.parse
(decoding failure is the SyntaxError path), then reject decoded values
that are not typeof object or are null.  JavaScript typeof classifies
arrays as object, so arrays pass this check exactly as in the source. -/
def parseJsonSection (value : String) (keyword : String) : Except String Json :=
  if jsTrim value = "" then .error (keyword ++ " value cannot be empty")
  else
    match jsonParse value with
    | none => .error ("Invalid JSON format in " ++ keyword ++ " section")
    | some v =>
      match v with
      | .obj o => .ok (.obj o)
      | .arr xs => .ok (.arr xs)
      | _ => .error (keyword ++ " value must be a JSON object")

/-- The source's parsePart: split the segment into words, special-case
too-short segments by position, then enforce keyword case and membership
before dispatching on the keyword. -/
def parsePart (part : String) (index : Nat) : Except String ParsedPart :=
  let words := splitBySpaces part
  if words.length < 2 then
    if index = 0 ∧ ¬ words.headD "" = "HTTP" then
      .error "Missing required HTTP keyword"
    else if index = 1 ∧ ¬ words.headD "" = "URL" then
      .error "Missing required URL keyword"
    else .error ("Invalid part format: \"" ++ part ++ "\"")
  else
    let keyword := words.headD ""
    let value := String.intercalate " " (words.drop 1)
    if ¬ keyword = jsToUpper keyword then .error "Keywords must be uppercase"
    else if ¬ (keyword = "HTTP" ∨ keyword = "URL" ∨ keyword = "HEADERS" ∨
        keyword = "QUERY" ∨ keyword = "BODY") then
      .error ("Unknown keyword: \"" ++ keyword ++
        "\". Valid keywords are: HTTP, URL, HEADERS, QUERY, BODY")
    else if keyword = "HTTP" then parseHttpMethod value
    else if keyword = "URL" then parseUrl value
    else if keyword = "HEADERS" then (parseJsonSection value "HEADERS").map .headersPart
    else if keyword = "QUERY" then (parseJsonSection value "QUERY").map .queryPart
    else if keyword = "BODY" then (parseJsonSection value "BODY").map .bodyPart
    else .error ("Unhandled keyword: " ++ keyword)

/-- Accumulator of the source's parse loop (the parsed object before the
required-field validation). -/
structure PState where
  method : Option String
  url : Option String
  headers : List (String × Json)
  query : List (String × Json)
  body : List (String × Json)

/-- The source's per-part loop: empty segments (after trimming) are
skipped but still advance the index; HTTP and URL enforce uniqueness and
their fixed positions; HEADERS/QUERY/BODY shallow-merge by object
spread. -/
def processParts : List String → Nat → PState → Except String PState
  | [], _, st => .ok st
  | p :: rest, i, st =>
    let part := jsTrim p
    if part = "" then processParts rest (i + 1) st
    else
      match parsePart part i with
      | .error e => .error e
      | .ok pp =>
        match pp with
        | .httpPart v =>
          if st.method.isSome then .error "HTTP method can only appear once"
          else if ¬ i = 0 then .error "HTTP keyword must be first"
          else processParts rest (i + 1) ⟨some v, st.url, st.headers, st.query, st.body⟩
        | .urlPart v =>
          if st.url.isSome then .error "URL can only appear once"
          else if ¬ i = 1 then .error "URL keyword must be second"
          else processParts rest (i + 1) ⟨st.method, some v, st.headers, st.query, st.body⟩
        | .headersPart v =>
          processParts rest (i + 1)
            ⟨st.method, st.url, spreadInto st.headers v, st.query, st.body⟩
        | .queryPart v =>
          processParts rest (i + 1)
            ⟨st.method, st.url, st.headers, spreadInto st.query v, st.body⟩
        | .bodyPart v =>
          processParts rest (i + 1)
            ⟨st.method, st.url, st.headers, st.query, spreadInto st.body v⟩

/-- The parsed request returned by the source's parse (the validated
parsed object). -/
structure ParsedRequest where
  method : String
  url : String
  headers : List (String × Json)
  query : List (String × Json)
  body : List (String × Json)

/-- Continuation of the source's parse after segmentation: the minimum
segment count (with a dedicated message when no pipe occurs in the
trimmed statement at all), the first-segment HTTP pre-check (with a
dedicated message when it starts with a bare verb), the per-part loop and
the final required-field validation.  Split out of parse so theorems can
speak about the phase after splitByDelimiter. -/
def parseWithParts (trimmed : String) (parts : List String) :
    Except String ParsedRequest :=
  if parts.length < 2 then
    if ¬ trimmed.data.contains '|' then
      .error "Missing pipe delimiter (|). Use format: HTTP GET | URL https://example.com"
    else
      .error "Invalid reqline format. Expected at least HTTP and URL. Check examples if you need help with the format"
  else
    let firstPart := jsTrim (parts.headD "")
    let firstWord := (splitBySpaces firstPart).headD ""
    if ¬ firstWord = "" ∧ ¬ jsToUpper firstWord = "HTTP" then
      if jsToUpper firstWord = "GET" ∨ jsToUpper firstWord = "POST" then
        .error "Missing required HTTP keyword"
      else .error "HTTP keyword must be first"
    else
      match processParts parts 0 ⟨none, none, [], [], []⟩ with
      | .error e => .error e
      | .ok st =>
        match st.method with
        | none => .error "Missing required HTTP keyword"
        | some m =>
          match st.url with
          | none => .error "Missing required URL keyword"
          | some u => .ok ⟨m, u, st.headers, st.query, st.body⟩

/-- The source's parse: empty and blank statements rejected, the
statement trimmed and split on pipes, then the parseWithParts
continuation. -/
def parse (reqline : String) : Except String ParsedRequest :=
  if reqline = "" then .error "Empty reqline statement"
  else
    let trimmed := jsTrim reqline
    if trimmed = "" then .error "Empty reqline statement"
    else
      match splitByDelimiter trimmed with
      | .error e => .error e
      | .ok parts => parseWithParts trimmed parts

/-- A file attachment reference inside a FORMDATA value: required path,
filename defaulting to the field key, content type defaulting to the
generic binary type. -/
structure FileRef where
  path : String
  filename : String
  contentType : String

/-- A parsed FORMDATA value: plain fields and file references, keyed by
their top-level FORMDATA keys in order. -/
structure FormDataSpec where
  fields : List (String × Json)
  files : List (String × FileRef)

/-- Modelled from the spec: classification of one FORMDATA entry as a
file.  The deployed FORMDATA-capable revision of
src/services/reqline/parser.js is absent from src (the copy there is an
earlier revision without FORMDATA); per the spec a value is a file iff it
is an object carrying the type-file discriminator marker. -/
def isFileEntry (v : Json) : Bool :=
  match v with
  | .obj o =>
    match vlookup o "type" with
    | some (.str t) => t = "file"
    | _ => false
  | _ => false

/-- Modelled from the spec: turn the decoded FORMDATA object into a
FormDataSpec.  File entries require a path (error message fixed by the
repository's own tests in src/unnamed/part_000), filename defaults to the
field key and contentType to application/octet-stream; every other entry
is a plain field. -/
def classifyEntries : List (String × Json) → FormDataSpec →
    Except String FormDataSpec
  | [], acc => .ok acc
  | (k, v) :: rest, acc =>
    if isFileEntry v then
      match v with
      | .obj o =>
        match vlookup o "path" with
        | some (.str p) =>
          let fname := match vlookup o "filename" with
            | some (.str f) => f
            | _ => k
          let ctype := match vlookup o "contentType" with
            | some (.str c) => c
            | _ => "application/octet-stream"
          classifyEntries rest ⟨acc.fields, acc.files ++ [(k, ⟨p, fname, ctype⟩)]⟩
        | _ => .error ("File field \"" ++ k ++ "\" must have a \"path\" property")
      | _ => .error ("File field \"" ++ k ++ "\" must have a \"path\" property")
    else classifyEntries rest ⟨acc.fields ++ [(k, v)], acc.files⟩

/-- Modelled from the spec: FORMDATA value decoding, sharing the Value
Decoder with the other JSON-valued keywords and classifying each
top-level entry file-vs-field. -/
def parseFormDataValue (value : String) : Except String FormDataSpec :=
  match parseJsonSection value "FORMDATA" with
  | .error e => .error e
  | .ok (.obj o) => classifyEntries o ⟨[], []⟩
  | .ok _ => classifyEntries [] ⟨[], []⟩

/-- One parsed segment of the FORMDATA-capable grammar. -/
inductive ParsedPartF where
  | httpPart (value : String)
  | urlPart (value : String)
  | headersPart (value : Json)
  | queryPart (value : Json)
  | bodyPart (value : Json)
  | formdataPart (value : FormDataSpec)

/-- Modelled from the spec: the FORMDATA-capable revision's
parseHttpMethod, whose supported verb set is GET, POST, PUT, DELETE,
PATCH (the message is fixed by the repository's own tests). -/
def specParseHttpMethod (value : String) : Except String ParsedPartF :=
  if ¬ value = jsToUpper value then .error "HTTP method must be uppercase"
  else if ¬ (value = "GET" ∨ value = "POST" ∨ value = "PUT" ∨ value = "DELETE" ∨
      value = "PATCH") then
    .error "Invalid HTTP method. Only GET, POST, PUT, DELETE, and PATCH are supported"
  else .ok (.httpPart value)

/-- Modelled from the spec: the FORMDATA-capable revision's parsePart.
Identical to the src revision's parsePart except that FORMDATA belongs to
the keyword set and dispatches to the FORMDATA value decoder, and the
verb set is the five-verb one. -/
def specParsePart (part : String) (index : Nat) : Except String ParsedPartF :=
  let words := splitBySpaces part
  if words.length < 2 then
    if index = 0 ∧ ¬ words.headD "" = "HTTP" then
      .error "Missing required HTTP keyword"
    else if index = 1 ∧ ¬ words.headD "" = "URL" then
      .error "Missing required URL keyword"
    else .error ("Invalid part format: \"" ++ part ++ "\"")
  else
    let keyword := words.headD ""
    let value := String.intercalate " " (words.drop 1)
    if ¬ keyword = jsToUpper keyword then .error "Keywords must be uppercase"
    else if ¬ (keyword = "HTTP" ∨ keyword = "URL" ∨ keyword = "HEADERS" ∨
        keyword = "QUERY" ∨ keyword = "BODY" ∨ keyword = "FORMDATA") then
      .error ("Unknown keyword: \"" ++ keyword ++
        "\". Valid keywords are: HTTP, URL, HEADERS, QUERY, BODY, FORMDATA")
    else if keyword = "HTTP" then specParseHttpMethod value
    else if keyword = "URL" then (parseUrl value).map (fun pp =>
      match pp with
      | .urlPart u => .urlPart u
      | _ => .urlPart value)
    else if keyword = "HEADERS" then (parseJsonSection value "HEADERS").map .headersPart
    else if keyword = "QUERY" then (parseJsonSection value "QUERY").map .queryPart
    else if keyword = "BODY" then (parseJsonSection value "BODY").map .bodyPart
    else if keyword = "FORMDATA" then (parseFormDataValue value).map .formdataPart
    else .error ("Unhandled keyword: " ++ keyword)

/-- Accumulator of the FORMDATA-capable parse loop. -/
structure PStateF where
  method : Option String
  url : Option String
  headers : List (String × Json)
  query : List (String × Json)
  body : List (String × Json)
  formData : Option FormDataSpec

/-- Modelled from the spec: the FORMDATA-capable per-part loop.  FORMDATA
may appear at most once (duplicate check first, message fixed by the
repository's tests) and never together with a body that produced a
non-empty mapping, in either order. -/
def specProcessParts : List String → Nat → PStateF → Except String PStateF
  | [], _, st => .ok st
  | p :: rest, i, st =>
    let part := jsTrim p
    if part = "" then specProcessParts rest (i + 1) st
    else
      match specParsePart part i with
      | .error e => .error e
      | .ok pp =>
        match pp with
        | .httpPart v =>
          if st.method.isSome then .error "HTTP method can only appear once"
          else if ¬ i = 0 then .error "HTTP keyword must be first"
          else specProcessParts rest (i + 1)
            ⟨some v, st.url, st.headers, st.query, st.body, st.formData⟩
        | .urlPart v =>
          if st.url.isSome then .error "URL can only appear once"
          else if ¬ i = 1 then .error "URL keyword must be second"
          else specProcessParts rest (i + 1)
            ⟨st.method, some v, st.headers, st.query, st.body, st.formData⟩
        | .headersPart v =>
          specProcessParts rest (i + 1)
            ⟨st.method, st.url, spreadInto st.headers v, st.query, st.body, st.formData⟩
        | .queryPart v =>
          specProcessParts rest (i + 1)
            ⟨st.method, st.url, st.headers, spreadInto st.query v, st.body, st.formData⟩
        | .bodyPart v =>
          let newBody := spreadInto st.body v
          if st.formData.isSome && ¬ newBody.isEmpty then
            .error "Cannot use both BODY and FORMDATA in the same request"
          else specProcessParts rest (i + 1)
            ⟨st.method, st.url, st.headers, st.query, newBody, st.formData⟩
        | .formdataPart v =>
          if st.formData.isSome then .error "FORMDATA can only appear once"
          else if ¬ st.body.isEmpty then
            .error "Cannot use both BODY and FORMDATA in the same request"
          else specProcessParts rest (i + 1)
            ⟨st.method, st.url, st.headers, st.query, st.body, some v⟩

/-- The parsed request of the FORMDATA-capable grammar: the src revision's
record plus the formData field, null (none) when no FORMDATA segment is
present. -/
structure ParsedRequestF where
  method : String
  url : String
  headers : List (String × Json)
  query : List (String × Json)
  body : List (String × Json)
  formData : Option FormDataSpec

/-- Modelled from the spec: parse of the FORMDATA-capable revision of
src/services/reqline/parser.js, which is absent from src — the copy under
src is an earlier revision without FORMDATA, while the repository's own
tests (src/unnamed/part_000) and the executor's destructuring of formData
target this revision.  The structure is that of the src revision's parse;
only the verb set, the keyword set and the formData handling follow the
spec's description of the newer revision, each fixed further by the error
texts the repository's tests pin down. -/
def specParse (reqline : String) : Except String ParsedRequestF :=
  if reqline = "" then .error "Empty reqline statement"
  else
    let trimmed := jsTrim reqline
    if trimmed = "" then .error "Empty reqline statement"
    else
      match splitByDelimiter trimmed with
      | .error e => .error e
      | .ok parts =>
        if parts.length < 2 then
          if ¬ trimmed.data.contains '|' then
            .error "Missing pipe delimiter (|). Use format: HTTP GET | URL https://example.com"
          else
            .error "Invalid reqline format. Expected at least HTTP and URL. Check examples if you need help with the format"
        else
          let firstPart := jsTrim (parts.headD "")
          let firstWord := (splitBySpaces firstPart).headD ""
          if ¬ firstWord = "" ∧ ¬ jsToUpper firstWord = "HTTP" then
            if jsToUpper firstWord = "GET" ∨ jsToUpper firstWord = "POST" ∨
                jsToUpper firstWord = "PUT" ∨ jsToUpper firstWord = "DELETE" ∨
                jsToUpper firstWord = "PATCH" then
              .error "Missing required HTTP keyword"
            else .error "HTTP keyword must be first"
          else
            match specProcessParts parts 0 ⟨none, none, [], [], [], none⟩ with
            | .error e => .error e
            | .ok st =>
              match st.method with
              | none => .error "Missing required HTTP keyword"
              | some m =>
                match st.url with
                | none => .error "Missing required URL keyword"
                | some u => .ok ⟨m, u, st.headers, st.query, st.body, st.formData⟩

/-- A cookie record as stored by the executor's jar: name and value plus
the attributes parseCookieHeader recognises. -/
structure Cookie where
  name : String
  value : String
  expires : Option String := none
  maxAge : Option Int := none
  domain : Option String := none
  path : Option String := none
  secure : Bool := false
  httpOnly : Bool := false
  deriving DecidableEq

/-- The executor's process-wide cookie jar, a map from domain to the
ordered cookie list of that domain (a missing domain reads as the empty
list, as the source's Map get with a default does). -/
def CookieJar : Type := String → List Cookie

/-- The empty jar. -/
def emptyJar : CookieJar := fun _ => []

/-- Fold the source's attribute loop over the tail of the semicolon-split
directive. -/
def applyCookieAttrs : List String → Cookie → Cookie
  | [], c => c
  | part :: rest, c =>
    let kv := jsSplit '=' part
    let attrName := jsToLower (jsTrim (kv.headD ""))
    let attrValue := kv.get? 1
    let c :=
      if attrName = "expires" then
        ⟨c.name, c.value, attrValue, c.maxAge, c.domain, c.path, c.secure, c.httpOnly⟩
      else if attrName = "max-age" then
        ⟨c.name, c.value, c.expires, jsParseInt attrValue, c.domain, c.path, c.secure, c.httpOnly⟩
      else if attrName = "domain" then
        ⟨c.name, c.value, c.expires, c.maxAge, attrValue, c.path, c.secure, c.httpOnly⟩
      else if attrName = "path" then
        ⟨c.name, c.value, c.expires, c.maxAge, c.domain, attrValue, c.secure, c.httpOnly⟩
      else if attrName = "secure" then
        ⟨c.name, c.value, c.expires, c.maxAge, c.domain, c.path, true, c.httpOnly⟩
      else if attrName = "httponly" then
        ⟨c.name, c.value, c.expires, c.maxAge, c.domain, c.path, c.secure, true⟩
      else c
    applyCookieAttrs rest c

/-- The source's parseCookieHeader: split the directive on semicolons,
split the first piece on the equals sign into name and value, drop the
directive when the name is empty or the value is missing or empty, trim
both, then fold the recognised attributes over the remaining pieces. -/
def parseCookieHeader (cookieHeader : String) : Option Cookie :=
  let parts := jsSplit ';' cookieHeader
  let nameValue := parts.headD ""
  let nv := jsSplit '=' nameValue
  let name := nv.headD ""
  let value := nv.get? 1
  match value with
  | none => none
  | some v =>
    if name = "" ∨ v = "" then none
    else applyCookieAttrs (parts.drop 1)
      ⟨jsTrim name, jsTrim v, none, none, none, none, false, false⟩

/-- The source's per-directive upsert inside storeCookiesFromResponse:
findIndex by cookie name, in-place assignment when found, push when not —
i.e. replace the first cookie bearing the name, else append. -/
def upsertCookie : List Cookie → Cookie → List Cookie
  | [], c => [c]
  | x :: rest, c => if x.name = c.name then c :: rest else x :: upsertCookie rest c

/-- The source's storeCookiesFromResponse: parse every set-cookie
directive of the response, skip the malformed ones, and upsert the rest
into the target domain's bucket, leaving every other domain untouched.
An absent set-cookie header is passed as the empty directive list, which
the source's early return makes observationally identical. -/
def storeCookiesFromResponse (setCookies : List String) (domain : String)
    (jar : CookieJar) : CookieJar :=
  fun d =>
    if d = domain then
      setCookies.foldl
        (fun acc h =>
          match parseCookieHeader h with
          | some c => upsertCookie acc c
          | none => acc)
        (jar domain)
    else jar d

/-- The source's getCookiesForDomain: the domain's bucket rendered as
name=value strings. -/
def getCookiesForDomain (jar : CookieJar) (domain : String) : List String :=
  (jar domain).map (fun c => c.name ++ "=" ++ c.value)

/-- The source's getCookiesFromResponse: the well-formed directives of
the response rendered as name=value strings. -/
def getCookiesFromResponse (setCookies : List String) : List String :=
  (setCookies.map (fun h => (parseCookieHeader h).map
    (fun c => c.name ++ "=" ++ c.value))).filterMap id

/-- What a filesystem path resolves to, the state consulted by the
existsSync and statSync calls of createFormData. -/
inductive FsEntry where
  | file
  | directory
  | missing

mutual

/-- String rendering the searchParams append performs on a JSON query
value (JavaScript ToString: arrays join their rendered elements with
commas, plain objects render as the generic object tag). -/
def jsToString : Json → String
  | .null => "null"
  | .bool true => "true"
  | .bool false => "false"
  | .num n => toString n
  | .str s => s
  | .arr xs => String.intercalate "," (jsToStringList xs)
  | .obj _ => "[object Object]"

/-- Renderings of the elements of an array, for the comma join of the
JavaScript array ToString. -/
def jsToStringList : List Json → List String
  | [] => []
  | x :: xs => jsToString x :: jsToStringList xs

end

/-- The source's buildFullUrl: the base URL untouched when the query
mapping is empty, otherwise the query pairs appended to the URL's query
string.  (Percent-encoding performed by the URL serializer is not
modelled; no theorem below depends on the serialized URL text.) -/
def buildFullUrl (baseUrl : String) (queryParams : List (String × Json)) : String :=
  if queryParams.isEmpty then baseUrl
  else
    baseUrl ++ (if baseUrl.data.contains '?' then "&" else "?") ++
      String.intercalate "&" (queryParams.map (fun p => p.1 ++ "=" ++ jsToString p.2))

/-- The source's extractDomain: the URL's hostname, with the unknown
bucket as the fallback for an unparsable URL. -/
def extractDomain (url : String) : String :=
  if isValidUrl url then urlHost url else "unknown"

/-- One part appended to the multipart payload by createFormData. -/
inductive FormPart where
  | field (key : String) (value : Json)
  | fileStream (key : String) (path : String) (filename : String) (contentType : String)

/-- The outbound payload attached to the request configuration. -/
inductive Payload where
  | json (body : List (String × Json))
  | form (parts : List FormPart)

/-- The axios request configuration the executor assembles. -/
structure Config where
  method : String
  url : String
  headers : List (String × Json)
  timeout : Nat
  data : Option Payload

/-- The source's createFormData.  Plain fields are appended first.  The
file loop checks that each path exists and is a regular file — but the
source passes an async callback to Array forEach, which discards the
promises the callbacks return, so a rejection raised by these checks can
never fail createFormData or execute: it only surfaces as an unhandled
promise rejection outside the call's control flow.  The model therefore
returns the assembled payload together with the list of swallowed
rejection messages. -/
def createFormData (fs : String → FsEntry) (fd : FormDataSpec) :
    List FormPart × List String :=
  let fieldParts := fd.fields.map (fun kv => FormPart.field kv.1 kv.2)
  let step := fun (acc : List FormPart × List String) (kf : String × FileRef) =>
    match fs kf.2.path with
    | .missing =>
      (acc.1, acc.2 ++ ["Error processing file \"" ++ kf.1 ++ "\": File not found: " ++ kf.2.path])
    | .directory =>
      (acc.1, acc.2 ++ ["Error processing file \"" ++ kf.1 ++ "\": Path is not a file: " ++ kf.2.path])
    | .file =>
      (acc.1 ++ [FormPart.fileStream kf.1 kf.2.path kf.2.filename kf.2.contentType], acc.2)
  let filesAcc := fd.files.foldl step ([], [])
  (fieldParts ++ filesAcc.1, filesAcc.2)

/-- The request configuration and swallowed file rejections the executor
assembles before dispatching, following the source's execute up to the
axios call: cookie header attachment, then the payload branch — multipart
payload with the Content-Type header deleted when formData is present,
JSON payload with Content-Type application/json when the body mapping is
non-empty, and no payload at all unless the method is POST, PUT or
PATCH. -/
def buildConfig (fs : String → FsEntry) (jar : CookieJar) (pr : ParsedRequestF) :
    Config × List String :=
  let fullUrl := buildFullUrl pr.url pr.query
  let domain := extractDomain pr.url
  let cookies := getCookiesForDomain jar domain
  let headers1 :=
    if cookies.isEmpty then pr.headers
    else insertObj pr.headers ("Cookie", .str (String.intercalate "; " cookies))
  if (pr.method = "POST" ∨ pr.method = "PUT" ∨ pr.method = "PATCH") ∧
      (¬ pr.body.isEmpty ∨ pr.formData.isSome) then
    match pr.formData with
    | some fd =>
      let built := createFormData fs fd
      (⟨jsToLower pr.method, fullUrl, eraseObj headers1 "Content-Type", 30000,
        some (.form built.1)⟩, built.2)
    | none =>
      (⟨jsToLower pr.method, fullUrl,
        insertObj headers1 ("Content-Type", .str "application/json"), 30000,
        some (.json pr.body)⟩, [])
  else (⟨jsToLower pr.method, fullUrl, headers1, 30000, none⟩, [])

/-- An HTTP response as the executor reads it from axios: status code,
payload, and the set-cookie response headers (empty when absent). -/
structure HttpResponse where
  status : Nat
  data : Json
  setCookies : List String

/-- The outcome of one axios dispatch, the case split the executor's
catch block performs: a resolved response, a rejected call that still
carries a response (error.response set), a dispatched call that got no
response (error.request set), and a failure before dispatch. -/
inductive AxiosOutcome where
  | ok (resp : HttpResponse)
  | errResponse (resp : HttpResponse)
  | errRequest (message : String)
  | errSetup (message : String)

/-- The body slot of the request echo: the body mapping, or the formData
spec wrapped in a one-property object when formData was supplied. -/
inductive EchoBody where
  | plain (body : List (String × Json))
  | wrapped (formData : FormDataSpec)

/-- The echoed request half of an execution result. -/
structure RequestEcho where
  query : List (String × Json)
  bodyEcho : EchoBody
  headers : List (String × Json)
  full_url : String
  cookies_sent : Option (List String)

/-- The response half of an execution result.  The wall-clock duration
and start/stop timestamps of the source are not modelled; no claim
concerns them. -/
structure ResponseEcho where
  http_status : Nat
  response_data : Json
  cookies_received : List String

/-- The record a successful execution returns. -/
structure ExecutionResult where
  request : RequestEcho
  response : ResponseEcho

/-- Everything one call to execute produces: the returned result or
thrown error, the cookie jar afterwards, the configuration handed to
axios (the dispatched network call), and the file-check rejections
swallowed by the async forEach of createFormData. -/
structure ExecOutcome where
  result : Except String ExecutionResult
  jarAfter : CookieJar
  dispatched : Option Config
  rejectedFiles : List String

/-- JavaScript truthiness on the response payload, for the source's
fallback of error.response.data to an empty object. -/
def jsFalsy : Json → Bool
  | .null => true
  | .str s => s = ""
  | .num n => n = 0
  | .bool b => ¬ b
  | _ => false

/-- The request echo the source builds in both the resolved and the
error-with-response branches. -/
def mkEcho (pr : ParsedRequestF) (cookies : List String) (fullUrl : String) :
    RequestEcho :=
  ⟨pr.query,
    (match pr.formData with
      | some fd => .wrapped fd
      | none => .plain pr.body),
    pr.headers, fullUrl,
    if cookies.isEmpty then none else some cookies⟩

/-- The source's execute: assemble the configuration, dispatch it, and
split on the axios outcome — any response (whatever its status) becomes a
normal result, a response-less dispatched call throws the
no-response-received error, and a pre-dispatch failure throws the
request-setup error.  Cookies from a resolved response are stored into
the domain's bucket; the error-with-response branch reports received
cookies without storing them, as in the source. -/
def executeReq (fs : String → FsEntry) (axios : Config → AxiosOutcome)
    (jar : CookieJar) (pr : ParsedRequestF) : ExecOutcome :=
  let built := buildConfig fs jar pr
  let config := built.1
  let domain := extractDomain pr.url
  let cookies := getCookiesForDomain jar domain
  let fullUrl := buildFullUrl pr.url pr.query
  match axios config with
  | .ok resp =>
    ⟨.ok ⟨mkEcho pr cookies fullUrl,
        ⟨resp.status, resp.data, getCookiesFromResponse resp.setCookies⟩⟩,
      storeCookiesFromResponse resp.setCookies domain jar, some config, built.2⟩
  | .errResponse resp =>
    ⟨.ok ⟨mkEcho pr cookies fullUrl,
        ⟨resp.status, (if jsFalsy resp.data then .obj [] else resp.data),
          getCookiesFromResponse resp.setCookies⟩⟩,
      jar, some config, built.2⟩
  | .errRequest m =>
    ⟨.error ("No response received from server: " ++ m), jar, some config, built.2⟩
  | .errSetup m =>
    ⟨.error ("Request setup error: " ++ m), jar, some config, built.2⟩

/-- A thrown application error: message plus the error-code constant the
source passes to throwAppError. -/
structure AppError where
  message : String
  code : String
  deriving DecidableEq

/-- The missing-or-invalid-reqline message (fixed by the repository's
endpoint tests). -/
def missingReqlineMsg : String := "Missing or invalid reqline statement"

/-- The proxy-target-required message. -/
def targetRequiredMsg : String := "Proxy target is required and must be a string"

/-- The non-localhost proxy-target rejection message. -/
def targetNotLocalhostMsg : String :=
  "Proxy target must be a localhost URL (http://localhost or https://localhost, with optional port)"

/-- The generic internal-error message constant of the messages module
(its exact text is not pinned by anything in src; no theorem depends on
it beyond being a fixed constant). -/
def internalServerErrorMsg : String := "Internal server error"

/-- The executor destructures formData from the parsed request; a request
parsed by the src revision's parse carries no formData property, which
destructures to undefined, i.e. none. -/
def toRequestF (p : ParsedRequest) : ParsedRequestF :=
  ⟨p.method, p.url, p.headers, p.query, p.body, none⟩

/-- The proxy result: the execution result annotated with the
proxy_info record. -/
structure ProxyInfo where
  original_url : String
  proxy_target : String
  proxied_url : String
  deriving DecidableEq

/-- A successful proxy response. -/
structure ProxyResult where
  result : ExecutionResult
  proxy_info : ProxyInfo

/-- The source's mapping of a caught error inside proxyReqline: parser
errors get the check-examples suffix unless already present; executor
errors are matched on their message text (no-response first, then the
request-setup family with its ECONNREFUSED / ENOTFOUND / ETIMEDOUT
refinements); anything else becomes the generic internal error. -/
def mapProxyError (proxyTarget : String) (fromParser : Bool) (m : String) : AppError :=
  if fromParser then
    ⟨if strContains m "Check examples" then m
      else m ++ ". Check examples if you need help with the format", "BADREQUEST"⟩
  else if strContains m "No response received from server" then
    ⟨"Connection refused to " ++ proxyTarget ++
      ". Make sure your local server is running and accessible.", "BADREQUEST"⟩
  else if strContains m "Request setup error" then
    if strContains m "ECONNREFUSED" then
      ⟨"Connection refused to " ++ proxyTarget ++
        ". Make sure your local server is running and accessible.", "BADREQUEST"⟩
    else if strContains m "ENOTFOUND" then
      ⟨"Cannot resolve " ++ proxyTarget ++ ". Check if the localhost URL is correct.",
        "BADREQUEST"⟩
    else if strContains m "ETIMEDOUT" then
      ⟨"Request to " ++ proxyTarget ++
        " timed out. The local server might be slow or unresponsive.", "BADREQUEST"⟩
    else ⟨"Request setup error: " ++ m, "BADREQUEST"⟩
  else ⟨internalServerErrorMsg, "INTERNALSERVERERROR"⟩

/-- The source's proxyReqline service: reject a missing reqline, then a
missing proxy target, then any target that does not start with the
literal prefix http://localhost or https://localhost — all before the
statement is parsed.  A surviving call parses the statement, replaces the
URL's authority with the proxy target while keeping path and query,
executes the request, and annotates the result with proxy_info; errors
thrown inside are mapped by mapProxyError. -/
def proxyReqline (fs : String → FsEntry) (axios : Config → AxiosOutcome)
    (jar : CookieJar) (reqline proxyTarget : String) : Except AppError ProxyResult :=
  if reqline = "" then .error ⟨missingReqlineMsg, "BADREQUEST"⟩
  else if proxyTarget = "" then .error ⟨targetRequiredMsg, "BADREQUEST"⟩
  else if ¬ (jsStartsWith proxyTarget "http://localhost" ||
      jsStartsWith proxyTarget "https://localhost") then
    .error ⟨targetNotLocalhostMsg, "BADREQUEST"⟩
  else
    match parse reqline with
    | .error m => .error (mapProxyError proxyTarget true m)
    | .ok pr =>
      let originalUrl := pr.url
      let urlPath := urlPathAndSearch originalUrl
      let proxiedUrl := proxyTarget ++ urlPath
      let pr := toRequestF ⟨pr.method, proxiedUrl, pr.headers, pr.query, pr.body⟩
      let out := executeReq fs axios jar pr
      match out.result with
      | .ok res => .ok ⟨res, ⟨originalUrl, proxyTarget, proxiedUrl⟩⟩
      | .error m => .error (mapProxyError proxyTarget false m)

/-- The spec's wording of an acceptable proxy target, for comparison with
the source's check: exactly http://localhost or https://localhost, with
an optional numeric port and nothing else — i.e. an authority whose host
is the literal localhost. -/
def isLocalhostAuthority (s : String) : Bool :=
  let check := fun (pre : String) =>
    if s = pre then true
    else if jsStartsWith s (pre ++ ":") then
      let rest := s.data.drop (pre.data.length + 1)
      ¬ rest.isEmpty && rest.all Char.isDigit
    else false
  check "http://localhost" || check "https://localhost"

/-- Independent single-pass scan locating the first pipe-spacing offence
of a statement, in the order the character scan meets them: at each pipe
the character immediately before it (when the pipe is not the first
character) must be a space — reported as a before-offence, false —
and otherwise the character immediately after it (when the pipe is not
the last character) must be a space — reported as an after-offence,
true.  Unlike the splitter this scan advances one character at a time
and builds nothing, giving a specification to compare splitByDelimiter
against. -/
def pvAux : Option Char → List Char → Option Bool
  | _, [] => none
  | prev, c :: rest =>
    if c = '|' then
      if (match prev with | some p => p != ' ' | none => false) then some false
      else
        match rest with
        | [] => none
        | d :: _ => if d != ' ' then some true else pvAux (some '|') rest
    else pvAux (some c) rest

/-- First pipe-spacing offence of a statement, none when every pipe is
properly spaced. -/
def pipeViolation (s : String) : Option Bool := pvAux none s.data

/-- Fixture filesystem: one directory, everything else missing. -/
def fsFixture : String → FsEntry := fun p =>
  if p = "/some/dir" then .directory else .missing

/-- Fixture network: every dispatch resolves with status 200 and an empty
object payload. -/
def axiosOk200 : Config → AxiosOutcome := fun _ => .ok ⟨200, .obj [], []⟩

/-- Fixture request: POST whose formData references a missing file. -/
def prMissingFile : ParsedRequestF :=
  ⟨"POST", "https://example.com", [], [], [],
    some ⟨[], [("f", ⟨"/does/not/exist", "f", "application/octet-stream"⟩)]⟩⟩

/-- Fixture request: POST whose formData references a directory. -/
def prDirFile : ParsedRequestF :=
  ⟨"POST", "https://example.com", [], [], [],
    some ⟨[], [("g", ⟨"/some/dir", "g", "text/plain"⟩)]⟩⟩

/-- Fixture request: GET carrying a non-empty body mapping. -/
def prGetBody : ParsedRequestF :=
  ⟨"GET", "https://example.com", [], [], [("x", .num 1)], none⟩

/-- Fixture request: POST carrying a non-empty body mapping. -/
def prPostBody : ParsedRequestF :=
  ⟨"POST", "https://example.com", [], [], [("x", .num 1)], none⟩

/-- Keys of an embedded JavaScript object are pairwise distinct; parsed
JSON objects always satisfy this because parseJsonEntries builds them by
property assignment. -/
def NodupKeys (l : List (String × Json)) : Prop :=
  (l.map Prod.fst).Nodup

/-- Override of one entry by the later object in a merge: the value the
entry's key has after the merge. -/
def ovr (b : List (String × Json)) (p : String × Json) : String × Json :=
  (p.1, (vlookup b p.1).getD p.2)

/-- Closed form of the JavaScript object spread: the first object with
values overridden where the second object redefines a key, followed by
the second object's entries under fresh keys. -/
def mergeClosed (a b : List (String × Json)) : List (String × Json) :=
  a.map (ovr b) ++ b.filter (fun p => (vlookup a p.1).isNone)

/-- Claim C1: parsing the plain statement HTTP GET pipe URL
https://example.com/x yields a parsed request with method GET, that URL,
empty headers, query and body, and a formData field that is null (none)
because no FORMDATA segment is present. -/
theorem c1_simple_get_parses_with_null_formdata :
    specParse "HTTP GET | URL https://example.com/x" =
      .ok ⟨"GET", "https://example.com/x", [], [], [], none⟩ := by
  rfl

/-- Claim C3 (evidence of the code bug): for the POST request whose
formData references the missing path /does/not/exist, and for the one
referencing the directory /some/dir, execute does not fail — the file
checks run inside an async callback handed to Array forEach, so their
rejections are swallowed (they appear only in the rejectedFiles trace
with exactly the file-not-found / path-is-not-a-file messages) and the
network call is dispatched regardless of the filesystem, contradicting
the repository's own executor tests. -/
theorem c3_file_check_rejections_swallowed_and_call_dispatched :
    (∀ axios : Config → AxiosOutcome,
      (executeReq fsFixture axios emptyJar prMissingFile).dispatched =
        some (buildConfig fsFixture emptyJar prMissingFile).1) ∧
    (executeReq fsFixture axiosOk200 emptyJar prMissingFile).result.isOk = true ∧
    (executeReq fsFixture axiosOk200 emptyJar prMissingFile).rejectedFiles =
      ["Error processing file \"f\": File not found: /does/not/exist"] ∧
    (executeReq fsFixture axiosOk200 emptyJar prDirFile).result.isOk = true ∧
    (executeReq fsFixture axiosOk200 emptyJar prDirFile).rejectedFiles =
      ["Error processing file \"g\": Path is not a file: /some/dir"] := by
  refine ⟨fun axios => ?_, by rfl, by rfl, by rfl, by rfl⟩
  simp only [executeReq]
  cases hax : axios (buildConfig fsFixture emptyJar prMissingFile).1 <;> rfl

/-- Claim C4: execute partitions the axios outcome into exactly three
cases — any response, resolved or attached to a rejection, becomes a
normal result carrying that response's status as data; a dispatched call
that received no response throws the no-response error with the
underlying cause; a failure before dispatch throws the request-setup
error with the underlying cause. -/
theorem c4_execute_outcome_trichotomy (fs : String → FsEntry)
    (axios : Config → AxiosOutcome) (jar : CookieJar) (pr : ParsedRequestF) :
    (∀ resp, axios (buildConfig fs jar pr).1 = .ok resp →
      ∃ res, (executeReq fs axios jar pr).result = .ok res ∧
        res.response.http_status = resp.status) ∧
    (∀ resp, axios (buildConfig fs jar pr).1 = .errResponse resp →
      ∃ res, (executeReq fs axios jar pr).result = .ok res ∧
        res.response.http_status = resp.status) ∧
    (∀ m, axios (buildConfig fs jar pr).1 = .errRequest m →
      (executeReq fs axios jar pr).result =
        .error ("No response received from server: " ++ m)) ∧
    (∀ m, axios (buildConfig fs jar pr).1 = .errSetup m →
      (executeReq fs axios jar pr).result =
        .error ("Request setup error: " ++ m)) := by
  refine ⟨fun resp h => ?_, fun resp h => ?_, fun m h => ?_, fun m h => ?_⟩ <;>
    simp only [executeReq] <;> rw [h]
  · exact ⟨_, rfl, rfl⟩
  · exact ⟨_, rfl, rfl⟩

/-- Claim C4 witness: with the always-200 network fixture, execute on the
POST fixture returns a normal result with status 200. -/
theorem c4_execute_outcome_trichotomy_witness :
    ∃ res, (executeReq fsFixture axiosOk200 emptyJar prPostBody).result = .ok res ∧
      res.response.http_status = 200 :=
  (c4_execute_outcome_trichotomy fsFixture axiosOk200 emptyJar prPostBody).1
    ⟨200, .obj [], []⟩ rfl

theorem vlookup_insertObj (l : List (String × Json)) (k : String) (v : Json) :
    vlookup (insertObj l (k, v)) k = some v := by
  induction l with
  | nil => simp [insertObj, vlookup]
  | cons p rest ih =>
    obtain ⟨k0, v0⟩ := p
    by_cases hp : k0 = k
    · subst hp
      simp [insertObj, vlookup]
    · simp only [insertObj, vlookup, hp, if_false, ite_false]
      simpa [vlookup, hp] using ih

/-- Claim C9: a GET request never carries a data payload, whatever its
body or formData; a payload is attached exactly when the method is POST,
PUT or PATCH and the body mapping is non-empty or a formData is present;
and in the JSON-body case the payload is the body with Content-Type set
to application/json. -/
theorem c9_payload_only_for_body_verbs (fs : String → FsEntry) (jar : CookieJar)
    (pr : ParsedRequestF) :
    (pr.method = "GET" → (buildConfig fs jar pr).1.data = none) ∧
    ((buildConfig fs jar pr).1.data ≠ none ↔
      ((pr.method = "POST" ∨ pr.method = "PUT" ∨ pr.method = "PATCH") ∧
        (pr.body ≠ [] ∨ pr.formData ≠ none))) ∧
    ((pr.method = "POST" ∨ pr.method = "PUT" ∨ pr.method = "PATCH") →
      pr.formData = none → pr.body ≠ [] →
      (buildConfig fs jar pr).1.data = some (.json pr.body) ∧
        vlookup (buildConfig fs jar pr).1.headers "Content-Type" =
          some (.str "application/json")) := by
  refine ⟨?_, ⟨?_, ?_⟩, ?_⟩
  · intro hm
    unfold buildConfig
    rw [if_neg]
    rintro ⟨(h | h | h), -⟩ <;> rw [hm] at h <;> exact absurd h (by decide)
  · intro hd
    unfold buildConfig at hd
    by_cases hC : (pr.method = "POST" ∨ pr.method = "PUT" ∨ pr.method = "PATCH") ∧
        (¬ pr.body.isEmpty ∨ pr.formData.isSome)
    · refine ⟨hC.1, ?_⟩
      rcases hC.2 with h | h
      · exact Or.inl (by simpa [List.isEmpty_iff] using h)
      · exact Or.inr (Option.isSome_iff_ne_none.mp h)
    · rw [if_neg hC] at hd
      simp at hd
  · rintro ⟨h1, h2⟩
    have hC : (pr.method = "POST" ∨ pr.method = "PUT" ∨ pr.method = "PATCH") ∧
        (¬ pr.body.isEmpty ∨ pr.formData.isSome) := by
      refine ⟨h1, ?_⟩
      rcases h2 with h | h
      · exact Or.inl (by simpa [List.isEmpty_iff] using h)
      · exact Or.inr (Option.isSome_iff_ne_none.mpr h)
    unfold buildConfig
    rw [if_pos hC]
    cases hf : pr.formData <;> simp
  · intro hm hf hb
    have hC : (pr.method = "POST" ∨ pr.method = "PUT" ∨ pr.method = "PATCH") ∧
        (¬ pr.body.isEmpty ∨ pr.formData.isSome) := by
      exact ⟨hm, Or.inl (by simpa [List.isEmpty_iff] using hb)⟩
    unfold buildConfig
    rw [if_pos hC, hf]
    exact ⟨rfl, vlookup_insertObj _ _ _⟩

/-- Claim C9 witness: the GET fixture with a non-empty body carries no
payload, the POST fixture carries its JSON body with the JSON content
type. -/
theorem c9_payload_only_for_body_verbs_witness :
    (buildConfig fsFixture emptyJar prGetBody).1.data = none ∧
    (buildConfig fsFixture emptyJar prPostBody).1.data = some (.json [("x", .num 1)]) ∧
    vlookup (buildConfig fsFixture emptyJar prPostBody).1.headers "Content-Type" =
      some (.str "application/json") :=
  ⟨(c9_payload_only_for_body_verbs fsFixture emptyJar prGetBody).1 rfl,
    ((c9_payload_only_for_body_verbs fsFixture emptyJar prPostBody).2.2 (Or.inl rfl) rfl
      (by simp [prPostBody])).1,
    ((c9_payload_only_for_body_verbs fsFixture emptyJar prPostBody).2.2 (Or.inl rfl) rfl
      (by simp [prPostBody])).2⟩

theorem specParsePart_blank (i : Nat) : ∃ e, specParsePart "" i = Except.error e := by
  unfold specParsePart
  have hw : splitBySpaces "" = [] := rfl
  rw [hw]
  norm_num
  split
  · exact ⟨_, rfl⟩
  · split
    · exact ⟨_, rfl⟩
    · exact ⟨_, rfl⟩

/-- Claim C2: whenever the loop state carries a non-empty body and a
FORMDATA segment arrives (and no FORMDATA was seen before), or the state
carries a formData and a BODY segment decoding to a non-empty mapping
arrives, parsing fails with the body/formdata mutual-exclusion error; a
second FORMDATA segment fails with the duplicate-FORMDATA error.  The
three concrete statements instantiate this end to end, covering both
orders and the duplicate. -/
theorem c2_body_formdata_exclusion_and_duplicate :
    (∀ (parts : List String) (i : Nat) (st : PStateF) (part : String)
        (spec : FormDataSpec),
      specParsePart (jsTrim part) i = .ok (.formdataPart spec) →
      st.formData = none → st.body ≠ [] →
      specProcessParts (part :: parts) i st =
        .error "Cannot use both BODY and FORMDATA in the same request") ∧
    (∀ (parts : List String) (i : Nat) (st : PStateF) (part : String) (v : Json),
      specParsePart (jsTrim part) i = .ok (.bodyPart v) →
      st.formData ≠ none → spreadInto st.body v ≠ [] →
      specProcessParts (part :: parts) i st =
        .error "Cannot use both BODY and FORMDATA in the same request") ∧
    (∀ (parts : List String) (i : Nat) (st : PStateF) (part : String)
        (spec : FormDataSpec),
      specParsePart (jsTrim part) i = .ok (.formdataPart spec) →
      st.formData ≠ none →
      specProcessParts (part :: parts) i st = .error "FORMDATA can only appear once") ∧
    specParse "HTTP POST | URL https://example.com | BODY \x7b\"x\":1\x7d | FORMDATA \x7b\"y\":\"z\"\x7d" =
      .error "Cannot use both BODY and FORMDATA in the same request" ∧
    specParse "HTTP POST | URL https://example.com | FORMDATA \x7b\"y\":\"z\"\x7d | BODY \x7b\"x\":1\x7d" =
      .error "Cannot use both BODY and FORMDATA in the same request" ∧
    specParse "HTTP POST | URL https://example.com | FORMDATA \x7b\"y\":\"z\"\x7d | FORMDATA \x7b\"y\":\"z\"\x7d" =
      .error "FORMDATA can only appear once" := by
  have hblank : ∀ (part : String) (i : Nat) (pp : ParsedPartF),
      specParsePart (jsTrim part) i = .ok pp → ¬ jsTrim part = "" := by
    intro part i pp h he
    rw [he] at h
    obtain ⟨e, h2⟩ := specParsePart_blank i
    rw [h2] at h
    cases h
  refine ⟨?_, ?_, ?_, by rfl, by rfl, by rfl⟩
  · intro parts i st part spec h hfd hbody
    simp only [specProcessParts]
    rw [if_neg (hblank part i _ h), h]
    rw [hfd]
    simp [hbody, List.isEmpty_iff]
  · intro parts i st part v h hfd hbody
    simp only [specProcessParts]
    rw [if_neg (hblank part i _ h), h]
    simp [Option.isSome_iff_ne_none.mpr hfd, hbody, List.isEmpty_iff]
  · intro parts i st part spec h hfd
    simp only [specProcessParts]
    rw [if_neg (hblank part i _ h), h]
    simp [Option.isSome_iff_ne_none.mpr hfd]

/-- Claim C2 witness: a FORMDATA segment arriving at a state whose body
mapping is non-empty fails with the mutual-exclusion error. -/
theorem c2_body_formdata_exclusion_witness :
    specProcessParts ["FORMDATA \x7b\"y\":\"z\"\x7d"] 3
        ⟨some "POST", some "https://example.com", [], [], [("x", .num 1)], none⟩ =
      .error "Cannot use both BODY and FORMDATA in the same request" :=
  c2_body_formdata_exclusion_and_duplicate.1 [] 3
    ⟨some "POST", some "https://example.com", [], [], [("x", .num 1)], none⟩
    "FORMDATA \x7b\"y\":\"z\"\x7d" ⟨[("y", .str "z")], []⟩ rfl rfl (by simp)

/-- Claim C5: storing set-cookie directives under a domain D never
touches any other domain's bucket (so a get on an unrelated domain is
unchanged); the store folds directive by directive, skipping every
malformed directive (parseCookieHeader none) and upserting each
well-formed one; and the upsert replaces the first cookie bearing the
name in place, leaving all other positions untouched, while an unseen
name is appended at the end, preserving insertion order. -/
theorem c5_cookie_store_upsert_and_isolation (jar : CookieJar) (D : String)
    (hs : List String) :
    (∀ Dp, Dp ≠ D → storeCookiesFromResponse hs D jar Dp = jar Dp ∧
      getCookiesForDomain (storeCookiesFromResponse hs D jar) Dp =
        getCookiesForDomain jar Dp) ∧
    (∀ h rest, parseCookieHeader h = none →
      storeCookiesFromResponse (h :: rest) D jar =
        storeCookiesFromResponse rest D jar) ∧
    (∀ h c rest, parseCookieHeader h = some c →
      storeCookiesFromResponse (h :: rest) D jar =
        storeCookiesFromResponse rest D
          (fun d => if d = D then upsertCookie (jar D) c else jar d)) ∧
    (∀ (l : List Cookie) (c : Cookie), c.name ∉ l.map Cookie.name →
      upsertCookie l c = l ++ [c]) ∧
    (∀ (l1 l2 : List Cookie) (x c : Cookie), x.name = c.name →
      (∀ y ∈ l1, y.name ≠ c.name) →
      upsertCookie (l1 ++ x :: l2) c = l1 ++ c :: l2) := by
  refine ⟨?_, ?_, ?_, ?_, ?_⟩
  · intro Dp hne
    have h1 : storeCookiesFromResponse hs D jar Dp = jar Dp := by
      unfold storeCookiesFromResponse
      rw [if_neg hne]
    exact ⟨h1, by unfold getCookiesForDomain; rw [h1]⟩
  · intro h rest hnone
    funext d
    unfold storeCookiesFromResponse
    by_cases hd : d = D
    · rw [if_pos hd, if_pos hd, List.foldl_cons, hnone]
    · rw [if_neg hd, if_neg hd]
  · intro h c rest hsome
    funext d
    unfold storeCookiesFromResponse
    by_cases hd : d = D
    · rw [if_pos hd, if_pos hd, List.foldl_cons, hsome]
      simp
    · rw [if_neg hd, if_neg hd]
      simp [hd]
  · intro l c
    induction l with
    | nil => intro _; rfl
    | cons x rest ih =>
      intro hmem
      have hx : ¬ x.name = c.name := by
        intro he
        exact hmem (by simp [he])
      have hrest : c.name ∉ rest.map Cookie.name := by
        intro hm
        exact hmem (by simp [hm])
      simp only [upsertCookie, hx, if_false, ite_false, ih hrest, List.cons_append]
  · intro l1 l2 x c hx
    induction l1 with
    | nil =>
      intro _
      simp [upsertCookie, hx]
    | cons y l1' ih =>
      intro hall
      have hy : ¬ y.name = c.name := hall y (by simp)
      simp only [List.cons_append, upsertCookie, hy, if_false, ite_false]
      show y :: upsertCookie (l1' ++ x :: l2) c = y :: (l1' ++ c :: l2)
      rw [ih (fun z hz => hall z (by simp [hz]))]

/-- Claim C5 witness: storing a directive under example.com leaves the
empty jar's other.com bucket empty, and upserting a fresh name appends. -/
theorem c5_cookie_store_upsert_and_isolation_witness :
    storeCookiesFromResponse ["s=1; Path=/"] "example.com" emptyJar "other.com" =
      emptyJar "other.com" ∧
    upsertCookie [⟨"a", "1", none, none, none, none, false, false⟩]
        ⟨"s", "1", none, none, none, some "/", false, false⟩ =
      [⟨"a", "1", none, none, none, none, false, false⟩,
        ⟨"s", "1", none, none, none, some "/", false, false⟩] :=
  ⟨((c5_cookie_store_upsert_and_isolation emptyJar "example.com" ["s=1; Path=/"]).1
      "other.com" (by decide)).1,
    (c5_cookie_store_upsert_and_isolation emptyJar "example.com" []).2.2.2.1
      [⟨"a", "1", none, none, none, none, false, false⟩]
      ⟨"s", "1", none, none, none, some "/", false, false⟩ (by decide)⟩

theorem vlookup_append (l1 l2 : List (String × Json)) (k : String) :
    vlookup (l1 ++ l2) k =
      (match vlookup l1 k with
        | some v => some v
        | none => vlookup l2 k) := by
  induction l1 with
  | nil => simp [vlookup]
  | cons p rest ih =>
    obtain ⟨k0, v0⟩ := p
    by_cases hp : k0 = k
    · simp [vlookup, hp]
    · simp only [List.cons_append, vlookup, hp, if_false, ite_false]
      exact ih

theorem vlookup_eq_none_iff (l : List (String × Json)) (k : String) :
    vlookup l k = none ↔ k ∉ l.map Prod.fst := by
  induction l with
  | nil => simp [vlookup]
  | cons p rest ih =>
    obtain ⟨k0, v0⟩ := p
    by_cases hp : k0 = k
    · simp [vlookup, hp]
    · simp [vlookup, hp, ih, Ne.symm hp]

theorem vlookup_map_ovr (a b : List (String × Json)) (k : String) :
    vlookup (a.map (ovr b)) k =
      (vlookup a k).map (fun v => (vlookup b k).getD v) := by
  induction a with
  | nil => simp [vlookup]
  | cons p rest ih =>
    obtain ⟨k0, v0⟩ := p
    by_cases hp : k0 = k
    · subst hp
      simp [vlookup, ovr]
    · simp only [List.map_cons, ovr, vlookup, hp, if_false, ite_false]
      exact ih

theorem vlookup_filter_key (l : List (String × Json)) (q : String → Bool)
    (k : String) :
    vlookup (l.filter (fun p => q p.1)) k =
      if q k then vlookup l k else none := by
  induction l with
  | nil => simp [vlookup]
  | cons p rest ih =>
    obtain ⟨k0, v0⟩ := p
    by_cases hp : k0 = k
    · subst hp
      by_cases hq : q k0
      · simp [vlookup, hq, List.filter_cons]
      · simp [vlookup, hq, List.filter_cons, ih]
    · by_cases hq : q k0
      · simp only [List.filter_cons, hq, if_true, ite_true, vlookup, hp,
          if_false, ite_false]
        exact ih
      · simp only [List.filter_cons, hq, if_false, ite_false, Bool.false_eq_true,
          vlookup, hp]
        exact ih

theorem vlookup_filter_isNone (a b : List (String × Json)) (k : String)
    (h : vlookup a k = none) :
    vlookup (b.filter (fun p => (vlookup a p.1).isNone)) k = vlookup b k := by
  induction b with
  | nil => simp
  | cons p rest ih =>
    obtain ⟨k0, v0⟩ := p
    by_cases hp : k0 = k
    · subst hp
      simp [List.filter_cons, h, vlookup]
    · by_cases hq : (vlookup a k0).isNone
      · simp only [List.filter_cons, hq, if_true, ite_true, vlookup, hp,
          if_false, ite_false]
        exact ih
      · simp only [List.filter_cons, hq, if_false, ite_false, Bool.false_eq_true,
          vlookup, hp]
        exact ih

theorem vlookup_mergeClosed (a b : List (String × Json)) (k : String) :
    vlookup (mergeClosed a b) k =
      (match vlookup a k with
        | some va => some ((vlookup b k).getD va)
        | none => vlookup b k) := by
  unfold mergeClosed
  rw [vlookup_append, vlookup_map_ovr]
  cases ha : vlookup a k
  · simp only [Option.map_none']
    exact vlookup_filter_isNone a b k ha
  · simp

theorem keys_mergeClosed (a b : List (String × Json)) :
    (mergeClosed a b).map Prod.fst =
      a.map Prod.fst ++
        (b.filter (fun p => (vlookup a p.1).isNone)).map Prod.fst := by
  unfold mergeClosed
  rw [List.map_append, List.map_map]
  rfl

theorem isNone_vlookup_mergeClosed (a b : List (String × Json)) (k : String) :
    (vlookup (mergeClosed a b) k).isNone =
      ((vlookup a k).isNone && (vlookup b k).isNone) := by
  rw [vlookup_mergeClosed]
  cases ha : vlookup a k <;> cases hb : vlookup b k <;> simp

theorem insertObj_of_none (a : List (String × Json)) (k : String) (v : Json)
    (h : vlookup a k = none) : insertObj a (k, v) = a ++ [(k, v)] := by
  induction a with
  | nil => rfl
  | cons p rest ih =>
    obtain ⟨k0, v0⟩ := p
    by_cases hp : k0 = k
    · simp [vlookup, hp] at h
    · simp only [vlookup, hp, if_false, ite_false] at h
      simp only [insertObj, hp, if_false, ite_false, List.cons_append]
      rw [ih h]

theorem keys_insertObj (a : List (String × Json)) (e : String × Json) :
    (insertObj a e).map Prod.fst =
      (if (vlookup a e.1).isSome then a.map Prod.fst
        else a.map Prod.fst ++ [e.1]) := by
  induction a with
  | nil => simp [insertObj, vlookup]
  | cons p rest ih =>
    obtain ⟨k0, v0⟩ := p
    by_cases hp : k0 = e.1
    · simp [insertObj, vlookup, hp]
    · have hp2 : ¬ e.1 = k0 := Ne.symm hp
      simp only [insertObj, vlookup, hp, hp2, if_false, ite_false, List.map_cons, ih]
      by_cases hs : (vlookup rest e.1).isSome
      · simp [hs]
      · simp [hs]

theorem insertObj_nodupKeys (a : List (String × Json)) (e : String × Json)
    (h : NodupKeys a) : NodupKeys (insertObj a e) := by
  unfold NodupKeys at h ⊢
  rw [keys_insertObj]
  by_cases hs : (vlookup a e.1).isSome
  · simp [hs, h]
  · have hnone : vlookup a e.1 = none := by
      cases hv : vlookup a e.1
      · rfl
      · rw [hv] at hs; simp at hs
    have hmem : e.1 ∉ a.map Prod.fst := (vlookup_eq_none_iff _ _).mp hnone
    simp [hs, List.nodup_append, h, hmem]

theorem vlookup_decomp (a : List (String × Json)) (k : String) (va : Json)
    (h : vlookup a k = some va) :
    ∃ a1 a2, a = a1 ++ (k, va) :: a2 ∧ ∀ p ∈ a1, p.1 ≠ k := by
  induction a with
  | nil => simp [vlookup] at h
  | cons p rest ih =>
    obtain ⟨k0, v0⟩ := p
    by_cases hp : k0 = k
    · subst hp
      have hh : vlookup ((k0, v0) :: rest) k0 = some v0 := by simp [vlookup]
      rw [hh] at h
      injection h with h
      subst h
      exact ⟨[], rest, rfl, by simp⟩
    · simp only [vlookup, hp, if_false, ite_false] at h
      obtain ⟨a1, a2, heq, hall⟩ := ih h
      exact ⟨(k0, v0) :: a1, a2, by rw [heq]; rfl, by
        intro p hp2
        rcases List.mem_cons.mp hp2 with h1 | h1
        · rw [h1]; exact hp
        · exact hall p h1⟩

theorem insertObj_replace (a1 a2 : List (String × Json)) (k : String)
    (va v : Json) (h : ∀ p ∈ a1, p.1 ≠ k) :
    insertObj (a1 ++ (k, va) :: a2) (k, v) = a1 ++ (k, v) :: a2 := by
  induction a1 with
  | nil => simp [insertObj]
  | cons p a1' ih =>
    have hp : p.1 ≠ k := h p (by simp)
    simp only [List.cons_append, insertObj, hp, if_false, ite_false]
    show p :: insertObj (a1' ++ (k, va) :: a2) (k, v) = p :: (a1' ++ (k, v) :: a2)
    rw [ih (fun q hq => h q (by simp [hq]))]

theorem isNone_vlookup_of_keys_eq (l1 l2 : List (String × Json))
    (h : l1.map Prod.fst = l2.map Prod.fst) (q : String) :
    (vlookup l1 q).isNone = (vlookup l2 q).isNone := by
  have hiff : (vlookup l1 q = none) ↔ (vlookup l2 q = none) := by
    rw [vlookup_eq_none_iff, vlookup_eq_none_iff, h]
  cases h1 : vlookup l1 q <;> cases h2 : vlookup l2 q <;> simp_all

theorem mergeObj_eq_mergeClosed (b : List (String × Json)) :
    ∀ a, NodupKeys a → NodupKeys b → mergeObj a b = mergeClosed a b := by
  induction b with
  | nil =>
    intro a _ _
    have hid : a.map (ovr []) = a := by
      have hpt : ∀ p ∈ a, ovr [] p = p := fun p _ => by simp [ovr, vlookup]
      rw [List.map_congr_left hpt]
      simp
    simp [mergeObj, mergeClosed, hid]
  | cons e b' ih =>
    intro a ha hb
    obtain ⟨k, v⟩ := e
    have hb3 : (k :: b'.map Prod.fst).Nodup := by simpa [NodupKeys] using hb
    have hkb' : k ∉ b'.map Prod.fst := (List.nodup_cons.mp hb3).1
    have hb' : NodupKeys b' := (List.nodup_cons.mp hb3).2
    have hvb' : vlookup b' k = none := (vlookup_eq_none_iff _ _).mpr hkb'
    have step : mergeObj a ((k, v) :: b') = mergeObj (insertObj a (k, v)) b' := rfl
    rw [step, ih _ (insertObj_nodupKeys a (k, v) ha) hb']
    cases hvl : vlookup a k with
    | none =>
      rw [insertObj_of_none a k v hvl]
      have hka : k ∉ a.map Prod.fst := (vlookup_eq_none_iff _ _).mp hvl
      unfold mergeClosed
      rw [List.map_append]
      have hmid : List.map (ovr b') [(k, v)] = [(k, v)] := by
        simp [ovr, hvb']
      rw [hmid]
      have hmap : a.map (ovr ((k, v) :: b')) = a.map (ovr b') := by
        apply List.map_congr_left
        intro p hp
        have hpk : ¬ k = p.1 := fun he => hka (he ▸ List.mem_map_of_mem Prod.fst hp)
        simp [ovr, vlookup, hpk]
      rw [hmap]
      have hfil : b'.filter (fun p => (vlookup (a ++ [(k, v)]) p.1).isNone) =
          b'.filter (fun p => (vlookup a p.1).isNone) := by
        apply List.filter_congr
        intro p hp
        have hpk : ¬ k = p.1 := fun he => hkb' (he ▸ List.mem_map_of_mem Prod.fst hp)
        rw [vlookup_append]
        cases hq : vlookup a p.1
        · simp [vlookup, hpk]
        · simp
      rw [hfil]
      have hfil2 : ((k, v) :: b').filter (fun p => (vlookup a p.1).isNone) =
          (k, v) :: b'.filter (fun p => (vlookup a p.1).isNone) := by
        simp [List.filter_cons, hvl]
      rw [hfil2]
      simp
    | some va =>
      obtain ⟨a1, a2, heq, h1⟩ := vlookup_decomp a k va hvl
      subst heq
      have ha' : (a1.map Prod.fst ++ k :: a2.map Prod.fst).Nodup := by
        simpa [NodupKeys] using ha
      have ha2 : k ∉ a2.map Prod.fst := by
        have h3 := (List.nodup_append.mp ha').2.1
        exact (List.nodup_cons.mp h3).1
      rw [insertObj_replace a1 a2 k va v h1]
      unfold mergeClosed
      have hkeys : (a1 ++ (k, v) :: a2).map Prod.fst =
          (a1 ++ (k, va) :: a2).map Prod.fst := by simp
      have e1 : (a1 ++ (k, v) :: a2).map (ovr b') =
          a1.map (ovr b') ++ (k, v) :: a2.map (ovr b') := by
        rw [List.map_append, List.map_cons]
        have : ovr b' (k, v) = (k, v) := by simp [ovr, hvb']
        rw [this]
      have e2 : (a1 ++ (k, va) :: a2).map (ovr ((k, v) :: b')) =
          a1.map (ovr b') ++ (k, v) :: a2.map (ovr b') := by
        rw [List.map_append, List.map_cons]
        have hm1 : a1.map (ovr ((k, v) :: b')) = a1.map (ovr b') := by
          apply List.map_congr_left
          intro p hp
          have hpk : ¬ k = p.1 := fun he => (h1 p hp) he.symm
          simp [ovr, vlookup, hpk]
        have hm2 : a2.map (ovr ((k, v) :: b')) = a2.map (ovr b') := by
          apply List.map_congr_left
          intro p hp
          have hpk : ¬ k = p.1 := fun he => ha2 (he ▸ List.mem_map_of_mem Prod.fst hp)
          simp [ovr, vlookup, hpk]
        have hmmid : ovr ((k, v) :: b') (k, va) = (k, v) := by
          simp [ovr, vlookup]
        rw [hm1, hm2, hmmid]
      have e3 : b'.filter (fun p => (vlookup (a1 ++ (k, v) :: a2) p.1).isNone) =
          b'.filter (fun p => (vlookup (a1 ++ (k, va) :: a2) p.1).isNone) :=
        List.filter_congr (fun p _ => isNone_vlookup_of_keys_eq _ _ hkeys p.1)
      have e4 : ((k, v) :: b').filter
            (fun p => (vlookup (a1 ++ (k, va) :: a2) p.1).isNone) =
          b'.filter (fun p => (vlookup (a1 ++ (k, va) :: a2) p.1).isNone) := by
        rw [List.filter_cons]
        simp [hvl]
      rw [e1, e2, e3, e4]

theorem mergeClosed_assoc (a b c : List (String × Json)) :
    mergeClosed (mergeClosed a b) c = mergeClosed a (mergeClosed b c) := by
  have h2 : a.map (ovr (mergeClosed b c)) = (a.map (ovr b)).map (ovr c) := by
    rw [List.map_map]
    apply List.map_congr_left
    intro p _
    show ovr (mergeClosed b c) p = ovr c (ovr b p)
    unfold ovr
    rw [vlookup_mergeClosed]
    cases hb : vlookup b p.1 <;> simp
  have h3 : (b.map (ovr c)).filter (fun p => (vlookup a p.1).isNone) =
      (b.filter (fun p => (vlookup a p.1).isNone)).map (ovr c) := by
    rw [List.filter_map]
    exact congrArg (List.map (ovr c)) (List.filter_congr (fun p _ => rfl))
  have h4 : c.filter (fun p => (vlookup (mergeClosed a b) p.1).isNone) =
      c.filter (fun p => (vlookup a p.1).isNone && (vlookup b p.1).isNone) :=
    List.filter_congr (fun p _ => isNone_vlookup_mergeClosed a b p.1)
  have h5 : (c.filter (fun p => (vlookup b p.1).isNone)).filter
        (fun p => (vlookup a p.1).isNone) =
      c.filter (fun p => (vlookup a p.1).isNone && (vlookup b p.1).isNone) := by
    rw [List.filter_filter]
  calc mergeClosed (mergeClosed a b) c
      = (mergeClosed a b).map (ovr c) ++
          c.filter (fun p => (vlookup (mergeClosed a b) p.1).isNone) := rfl
    _ = (a.map (ovr b)).map (ovr c) ++
          ((b.filter (fun p => (vlookup a p.1).isNone)).map (ovr c) ++
            c.filter (fun p => (vlookup a p.1).isNone && (vlookup b p.1).isNone)) := by
        rw [h4]
        show ((a.map (ovr b) ++ b.filter (fun p => (vlookup a p.1).isNone)).map (ovr c)) ++ _ = _
        rw [List.map_append, List.append_assoc]
    _ = a.map (ovr (mergeClosed b c)) ++
          ((b.map (ovr c)).filter (fun p => (vlookup a p.1).isNone) ++
            (c.filter (fun p => (vlookup b p.1).isNone)).filter
              (fun p => (vlookup a p.1).isNone)) := by
        rw [h2, h3, h5]
    _ = a.map (ovr (mergeClosed b c)) ++
          (mergeClosed b c).filter (fun p => (vlookup a p.1).isNone) := by
        have hfa : (mergeClosed b c).filter (fun p => (vlookup a p.1).isNone) =
            (b.map (ovr c)).filter (fun p => (vlookup a p.1).isNone) ++
              (c.filter (fun p => (vlookup b p.1).isNone)).filter
                (fun p => (vlookup a p.1).isNone) := by
          show (b.map (ovr c) ++
              c.filter (fun p => (vlookup b p.1).isNone)).filter
              (fun p => (vlookup a p.1).isNone) = _
          exact List.filter_append _ _
        rw [hfa]
    _ = mergeClosed a (mergeClosed b c) := rfl

theorem nodupKeys_mergeClosed (a b : List (String × Json)) (ha : NodupKeys a)
    (hb : NodupKeys b) : NodupKeys (mergeClosed a b) := by
  unfold NodupKeys at ha hb ⊢
  rw [keys_mergeClosed, List.nodup_append]
  refine ⟨ha, ?_, ?_⟩
  · exact hb.sublist ((List.filter_sublist b).map Prod.fst)
  · intro x hx1 hx2
    obtain ⟨p, hpmem, hpx⟩ := List.mem_map.mp hx2
    have hfil := List.mem_filter.mp hpmem
    have hnone : vlookup a p.1 = none := by
      cases hv : vlookup a p.1
      · rfl
      · rw [hv] at hfil
        simp at hfil
    exact ((vlookup_eq_none_iff _ _).mp hnone) (hpx ▸ hx1)

theorem mergeObj_assoc (a b c : List (String × Json)) (ha : NodupKeys a)
    (hb : NodupKeys b) (hc : NodupKeys c) :
    mergeObj (mergeObj a b) c = mergeObj a (mergeObj b c) := by
  rw [mergeObj_eq_mergeClosed b a ha hb,
    mergeObj_eq_mergeClosed c (mergeClosed a b) (nodupKeys_mergeClosed a b ha hb) hc,
    mergeObj_eq_mergeClosed c b hb hc,
    mergeObj_eq_mergeClosed (mergeClosed b c) a ha (nodupKeys_mergeClosed b c hb hc)]
  exact mergeClosed_assoc a b c

/-- Claim C8: repeated HEADERS/QUERY/BODY segments shallow-merge in
encounter order with the later occurrence winning — concretely, the
double-QUERY statement yields the merged query; and on objects with
pairwise-distinct keys (as every decoded JSON object is) the spread-merge
is associative, the merged lookup prefers the later object, and the
merged key order is the first object's keys followed by the second's
fresh keys in order. -/
theorem c8_repeated_segments_shallow_merge :
    parse "HTTP GET | URL https://example.com | QUERY \x7b\"a\":1\x7d | QUERY \x7b\"b\":2\x7d" =
      .ok ⟨"GET", "https://example.com", [], [("a", .num 1), ("b", .num 2)], []⟩ ∧
    (∀ a b c : List (String × Json), NodupKeys a → NodupKeys b → NodupKeys c →
      mergeObj (mergeObj a b) c = mergeObj a (mergeObj b c)) ∧
    (∀ a b : List (String × Json), NodupKeys a → NodupKeys b →
      ∀ k, vlookup (mergeObj a b) k =
        (match vlookup b k with
          | some v => some v
          | none => vlookup a k)) ∧
    (∀ a b : List (String × Json), NodupKeys a → NodupKeys b →
      (mergeObj a b).map Prod.fst =
        a.map Prod.fst ++
          (b.filter (fun p => (vlookup a p.1).isNone)).map Prod.fst) := by
  refine ⟨by rfl, mergeObj_assoc, ?_, ?_⟩
  · intro a b ha hb k
    rw [mergeObj_eq_mergeClosed b a ha hb, vlookup_mergeClosed]
    cases hva : vlookup a k <;> cases hvb : vlookup b k <;> simp
  · intro a b ha hb
    rw [mergeObj_eq_mergeClosed b a ha hb, keys_mergeClosed]

/-- Claim C8 witness: associativity at three concrete one-entry objects
with a key collision. -/
theorem c8_repeated_segments_shallow_merge_witness :
    mergeObj (mergeObj [("a", Json.num 1)] [("b", Json.num 2)]) [("a", Json.num 3)] =
      mergeObj [("a", Json.num 1)] (mergeObj [("b", Json.num 2)] [("a", Json.num 3)]) :=
  c8_repeated_segments_shallow_merge.2.1 [("a", .num 1)] [("b", .num 2)]
    [("a", .num 3)] (by simp [NodupKeys]) (by simp [NodupKeys]) (by simp [NodupKeys])

theorem sbdAux_cons (prev : Option Char) (c : Char) (rest cur : List Char)
    (parts : List String) :
    sbdAux prev (c :: rest) cur parts =
      (if c = '|' then
        if (match prev with | some p => p != ' ' | none => false) then
          Except.error beforePipeMsg
        else
          match rest with
          | [] => .ok (parts ++ [⟨trimChars cur⟩])
          | d :: rest2 =>
            if ¬ d = ' ' then .error afterPipeMsg
            else sbdAux (some ' ') rest2 [] (parts ++ [⟨trimChars cur⟩])
      else sbdAux (some c) rest (cur ++ [c]) parts) := by
  rw [sbdAux.eq_def]

theorem sbd_matches_pv : ∀ (n : Nat) (cs : List Char), cs.length ≤ n →
    ∀ (prev : Option Char) (cur : List Char) (parts : List String),
    (pvAux prev cs = some false → sbdAux prev cs cur parts = .error beforePipeMsg) ∧
    (pvAux prev cs = some true → sbdAux prev cs cur parts = .error afterPipeMsg) ∧
    (pvAux prev cs = none → ∃ ps, sbdAux prev cs cur parts = .ok ps) := by
  intro n
  induction n with
  | zero =>
    intro cs hlen prev cur parts
    have hnil : cs = [] := List.length_eq_zero.mp (Nat.le_zero.mp hlen)
    subst hnil
    refine ⟨fun h => ?_, fun h => ?_, fun _ => ⟨_, rfl⟩⟩
    · simp [pvAux] at h
    · simp [pvAux] at h
  | succ n ih =>
    intro cs hlen prev cur parts
    cases cs with
    | nil =>
      refine ⟨fun h => ?_, fun h => ?_, fun _ => ⟨_, rfl⟩⟩
      · simp [pvAux] at h
      · simp [pvAux] at h
    | cons c rest =>
      by_cases hc : c = '|'
      · subst hc
        cases hprev : (match prev with | some p => p != ' ' | none => false) with
        | true =>
          refine ⟨fun _ => ?_, fun h => ?_, fun h => ?_⟩
          · rw [sbdAux_cons]
            simp [hprev]
          · simp [pvAux, hprev] at h
          · simp [pvAux, hprev] at h
        | false =>
          cases rest with
          | nil =>
            refine ⟨fun h => ?_, fun h => ?_, fun _ => ?_⟩
            · simp [pvAux, hprev] at h
            · simp [pvAux, hprev] at h
            · exact ⟨parts ++ [⟨trimChars cur⟩], by rw [sbdAux_cons]; simp [hprev]⟩
          | cons d rest2 =>
            by_cases hd : d = ' '
            · subst hd
              have hlen2 : rest2.length ≤ n := by
                simp only [List.length_cons] at hlen
                omega
              obtain ⟨i1, i2, i3⟩ := ih rest2 hlen2 (some ' ') []
                (parts ++ [⟨trimChars cur⟩])
              have hpv : pvAux prev ('|' :: ' ' :: rest2) = pvAux (some ' ') rest2 := by
                simp [pvAux, hprev]
              have hsbd : sbdAux prev ('|' :: ' ' :: rest2) cur parts =
                  sbdAux (some ' ') rest2 [] (parts ++ [⟨trimChars cur⟩]) := by
                rw [sbdAux_cons]
                simp [hprev]
              refine ⟨fun h => ?_, fun h => ?_, fun h => ?_⟩
              · rw [hsbd]
                rw [hpv] at h
                exact i1 h
              · rw [hsbd]
                rw [hpv] at h
                exact i2 h
              · rw [hsbd]
                rw [hpv] at h
                exact i3 h
            · have hdb : (d != ' ') = true := by simpa using hd
              refine ⟨fun h => ?_, fun h => ?_, fun h => ?_⟩
              · simp [pvAux, hprev, hdb] at h
              · rw [sbdAux_cons]
                simp [hprev, hd]
              · simp [pvAux, hprev, hdb] at h
      · have hlen2 : rest.length ≤ n := by
          simp only [List.length_cons] at hlen
          omega
        obtain ⟨i1, i2, i3⟩ := ih rest hlen2 (some c) (cur ++ [c]) parts
        have hpv : pvAux prev (c :: rest) = pvAux (some c) rest := by
          simp [pvAux, hc]
        have hsbd : sbdAux prev (c :: rest) cur parts =
            sbdAux (some c) rest (cur ++ [c]) parts := by
          rw [sbdAux_cons]
          simp [hc]
        refine ⟨fun h => ?_, fun h => ?_, fun h => ?_⟩
        · rw [hsbd]
          rw [hpv] at h
          exact i1 h
        · rw [hsbd]
          rw [hpv] at h
          exact i2 h
        · rw [hsbd]
          rw [hpv] at h
          exact i3 h

/-- Claim C7 (amended): segmentation fails exactly at the first
pipe-spacing offence met by the scan — a pipe that is not the first
character and whose immediately preceding character is not a space aborts
with the missing-space-before error, otherwise a pipe that is not the
last character and whose immediately following character is not a space
aborts with the missing-space-after error — and succeeds when no pipe
offends; a statement with more than one space around a pipe therefore
passes (see the counterexample).  The spec's own example is included
concretely. -/
theorem c7_pipe_spacing_first_offence (s : String) :
    (pipeViolation s = some false →
      splitByDelimiter s = .error beforePipeMsg) ∧
    (pipeViolation s = some true →
      splitByDelimiter s = .error afterPipeMsg) ∧
    (pipeViolation s = none → ∃ ps, splitByDelimiter s = .ok ps) ∧
    parse "HTTP GET| URL https://example.com" = .error beforePipeMsg ∧
    parse "HTTP GET |URL https://example.com" = .error afterPipeMsg := by
  obtain ⟨i1, i2, i3⟩ := sbd_matches_pv s.data.length s.data (Nat.le_refl _)
    none [] []
  exact ⟨i1, i2, i3, by rfl, by rfl⟩

/-- Claim C7 witness: the spec's no-space-before-pipe example fails at
segmentation with the before-pipe error. -/
theorem c7_pipe_spacing_first_offence_witness :
    splitByDelimiter "HTTP GET| URL https://example.com" = .error beforePipeMsg :=
  (c7_pipe_spacing_first_offence "HTTP GET| URL https://example.com").1 rfl

/-- Claim C7 counterexample: the claim requires every pipe to be preceded
by exactly one space, yet this statement, whose pipe is preceded by two
spaces, parses successfully — the source checks only the immediately
preceding character. -/
theorem c7_two_spaces_before_pipe_accepted :
    parse "HTTP GET  | URL https://example.com" =
      .ok ⟨"GET", "https://example.com", [], [], []⟩ := by
  rfl

theorem strData_append (a b : String) : (a ++ b).data = a.data ++ b.data := rfl

theorem dropTrailing_append_space (l : List Char) :
    dropTrailingWs (l ++ [' ']) = dropTrailingWs l := by
  simp [dropTrailingWs, List.dropWhile_cons, isWsChar]

theorem dropTrailing_append_nonws (l : List Char) (c : Char)
    (hc : ¬ isWsChar c = true) : dropTrailingWs (l ++ [c]) = l ++ [c] := by
  simp [dropTrailingWs, List.dropWhile_cons, hc]

theorem trimChars_append_space (l : List Char) :
    trimChars (l ++ [' ']) = trimChars l := by
  unfold trimChars
  rw [dropTrailing_append_space]

theorem dropWhile_head_not (p : Char → Bool) (l : List Char) (c : Char)
    (t : List Char) (h : l.dropWhile p = c :: t) : ¬ p c = true := by
  induction l with
  | nil => simp at h
  | cons a l' ih =>
    rw [List.dropWhile_cons] at h
    by_cases ha : p a = true
    · rw [if_pos ha] at h
      exact ih h
    · rw [if_neg ha] at h
      cases h
      exact ha

theorem dropLeading_append_of_fixed (l1 l2 : List Char)
    (h : dropLeadingWs l1 = l1) (hne : l1 ≠ []) :
    dropLeadingWs (l1 ++ l2) = l1 ++ l2 := by
  cases l1 with
  | nil => exact absurd rfl hne
  | cons c t =>
    have hc : ¬ isWsChar c = true :=
      dropWhile_head_not isWsChar (c :: t) c t h
    simp [dropLeadingWs, List.dropWhile_cons, hc]

theorem trimChars_fixed_append_pipe (l : List Char) (h : trimChars l = l)
    (hne : l ≠ []) : trimChars (l ++ [' ', '|']) = l ++ [' ', '|'] := by
  obtain ⟨c, t, rfl⟩ : ∃ c t, l = c :: t := by
    cases l with
    | nil => exact absurd rfl hne
    | cons c t => exact ⟨c, t, rfl⟩
  have hc : ¬ isWsChar c = true :=
    dropWhile_head_not isWsChar (dropTrailingWs (c :: t)) c t h
  have hfix : dropLeadingWs (c :: t) = c :: t := by
    simp [dropLeadingWs, List.dropWhile_cons, hc]
  unfold trimChars
  rw [show (c :: t) ++ [' ', '|'] = ((c :: t) ++ [' ']) ++ ['|'] by simp,
    dropTrailing_append_nonws ((c :: t) ++ [' ']) '|' (by decide),
    List.append_assoc]
  exact dropLeading_append_of_fixed (c :: t) ([' '] ++ ['|']) hfix (by simp)

theorem sbdAux_trailing_nil (prev : Option Char) (cur : List Char)
    (parts : List String) :
    sbdAux prev ([] ++ [' ', '|']) cur parts = sbdAux prev [] cur parts ∨
    ∃ ps, sbdAux prev [] cur parts = .ok ps ∧
      sbdAux prev ([] ++ [' ', '|']) cur parts = .ok (ps ++ [""]) := by
  have hstep : sbdAux prev [' ', '|'] cur parts =
      .ok (parts ++ [⟨trimChars cur⟩]) := by
    rw [sbdAux_cons, if_neg (by decide : ¬ (' ' = '|')), sbdAux_cons]
    simp [trimChars_append_space]
  by_cases hcur : (trimChars cur).isEmpty
  · right
    refine ⟨parts, ?_, ?_⟩
    · show Except.ok (parts ++
          (if (trimChars cur).isEmpty then [] else [(⟨trimChars cur⟩ : String)])) =
        Except.ok parts
      rw [if_pos hcur, List.append_nil]
    · show sbdAux prev [' ', '|'] cur parts = _
      rw [hstep]
      have he : (⟨trimChars cur⟩ : String) = "" := by
        rw [List.isEmpty_iff.mp hcur]
      rw [he]
  · left
    show sbdAux prev [' ', '|'] cur parts = Except.ok (parts ++
      (if (trimChars cur).isEmpty then [] else [(⟨trimChars cur⟩ : String)]))
    rw [hstep, if_neg hcur]

theorem sbdAux_append_trailing : ∀ (n : Nat) (cs : List Char), cs.length ≤ n →
    ∀ (prev : Option Char) (cur : List Char) (parts : List String),
    sbdAux prev (cs ++ [' ', '|']) cur parts = sbdAux prev cs cur parts ∨
    ∃ ps, sbdAux prev cs cur parts = .ok ps ∧
      sbdAux prev (cs ++ [' ', '|']) cur parts = .ok (ps ++ [""]) := by
  intro n
  induction n with
  | zero =>
    intro cs hlen prev cur parts
    have hnil : cs = [] := List.length_eq_zero.mp (Nat.le_zero.mp hlen)
    subst hnil
    exact sbdAux_trailing_nil prev cur parts
  | succ n ih =>
    intro cs hlen prev cur parts
    cases cs with
    | nil => exact sbdAux_trailing_nil prev cur parts
    | cons c rest =>
      rw [List.cons_append, sbdAux_cons, sbdAux_cons]
      by_cases hc : c = '|'
      · rw [if_pos hc, if_pos hc]
        cases hprev : (match prev with | some p => p != ' ' | none => false) with
        | true => exact Or.inl rfl
        | false =>
          cases rest with
          | nil =>
            exact Or.inr ⟨parts ++ [(⟨trimChars cur⟩ : String)],
              (rfl : (Except.ok (parts ++ [(⟨trimChars cur⟩ : String)]) :
                Except String (List String)) = _), rfl⟩
          | cons d rest2 =>
            by_cases hd : d = ' '
            · subst hd
              have hlen2 : rest2.length ≤ n := by
                simp only [List.length_cons] at hlen
                omega
              exact ih rest2 hlen2 (some ' ') [] (parts ++ [⟨trimChars cur⟩])
            · left
              simp [hd]
      · rw [if_neg hc, if_neg hc]
        have hlen2 : rest.length ≤ n := by
          simp only [List.length_cons] at hlen
          omega
        exact ih rest hlen2 (some c) (cur ++ [c]) parts

theorem processParts_append_empty : ∀ (parts : List String) (i : Nat) (st : PState),
    processParts (parts ++ [""]) i st = processParts parts i st := by
  intro parts
  induction parts with
  | nil =>
    intro i st
    rfl
  | cons p rest ih =>
    intro i st
    rw [List.cons_append]
    simp only [processParts]
    by_cases hp : jsTrim p = ""
    · rw [if_pos hp, if_pos hp]
      exact ih (i + 1) st
    · rw [if_neg hp, if_neg hp]
      cases hpp : parsePart (jsTrim p) i with
      | error e => rfl
      | ok pp =>
        cases pp with
        | httpPart v =>
          show (if st.method.isSome then _ else _) = (if st.method.isSome then _ else _)
          by_cases h1 : st.method.isSome
          · rw [if_pos h1, if_pos h1]
          · rw [if_neg h1, if_neg h1]
            by_cases h2 : ¬ i = 0
            · rw [if_pos h2, if_pos h2]
            · rw [if_neg h2, if_neg h2]
              exact ih _ _
        | urlPart v =>
          show (if st.url.isSome then _ else _) = (if st.url.isSome then _ else _)
          by_cases h1 : st.url.isSome
          · rw [if_pos h1, if_pos h1]
          · rw [if_neg h1, if_neg h1]
            by_cases h2 : ¬ i = 1
            · rw [if_pos h2, if_pos h2]
            · rw [if_neg h2, if_neg h2]
              exact ih _ _
        | headersPart v => exact ih _ _
        | queryPart v => exact ih _ _
        | bodyPart v => exact ih _ _

theorem parse_eq_parseWithParts (s : String) (parts : List String)
    (hs : ¬ s = "") (hTrim : jsTrim s = s)
    (hsd : splitByDelimiter s = .ok parts) :
    parse s = parseWithParts s parts := by
  simp only [parse, hs, hTrim, if_false, ite_false]
  rw [hsd]

theorem parseWithParts_trim_irrelevant (t1 t2 : String) (parts : List String)
    (hlen : ¬ parts.length < 2) :
    parseWithParts t1 parts = parseWithParts t2 parts := by
  unfold parseWithParts
  rw [if_neg hlen, if_neg hlen]

theorem parse_append_pipe (s : String) (pr : ParsedRequest)
    (hTrim : jsTrim s = s) (h : parse s = .ok pr) :
    parse (s ++ " |") = .ok pr := by
  have hs0 : ¬ s = "" := by
    intro he
    rw [he] at h
    simp [parse] at h
  have hdata : s.data ≠ [] := by
    intro hd
    apply hs0
    cases s with
    | mk d =>
      simp only at hd
      rw [hd]
  have hTrimData : trimChars s.data = s.data := by
    have h2 := congrArg String.data hTrim
    simpa [jsTrim] using h2
  cases hsd : splitByDelimiter s with
  | error e =>
    rw [parse, if_neg hs0] at h
    simp only [hTrim, if_neg hs0] at h
    rw [hsd] at h
    simp at h
  | ok parts =>
    rw [parse_eq_parseWithParts s parts hs0 hTrim hsd] at h
    by_cases hlen : parts.length < 2
    · rw [parseWithParts, if_pos hlen] at h
      split at h <;> simp at h
    · have hTrim2 : jsTrim (s ++ " |") = s ++ " |" := by
        have htc : trimChars (s.data ++ [' ', '|']) = s.data ++ [' ', '|'] :=
          trimChars_fixed_append_pipe s.data hTrimData hdata
        unfold jsTrim
        rw [strData_append, show (" |" : String).data = [' ', '|'] from rfl, htc]
        cases s with
        | mk d => rfl
      have hne2 : ¬ (s ++ " |") = "" := by
        intro he
        have h3 := congrArg String.data he
        rw [strData_append] at h3
        simp at h3
      have hsplit := sbdAux_append_trailing s.data.length s.data (Nat.le_refl _)
        none [] []
      rw [show sbdAux none s.data [] [] = splitByDelimiter s from rfl, hsd] at hsplit
      have hsbd2 : splitByDelimiter (s ++ " |") =
          sbdAux none (s.data ++ [' ', '|']) [] [] := by
        unfold splitByDelimiter
        rw [strData_append, show (" |" : String).data = [' ', '|'] from rfl]
      rcases hsplit with heq | ⟨ps, hps, heq⟩
      · have hsd2 : splitByDelimiter (s ++ " |") = .ok parts := by
          rw [hsbd2, heq]
        rw [parse_eq_parseWithParts (s ++ " |") parts hne2 hTrim2 hsd2,
          parseWithParts_trim_irrelevant (s ++ " |") s parts hlen]
        exact h
      · injection hps with hpe
        subst hpe
        have hsd2 : splitByDelimiter (s ++ " |") = .ok (parts ++ [""]) := by
          rw [hsbd2, heq]
        rw [parse_eq_parseWithParts (s ++ " |") (parts ++ [""]) hne2 hTrim2 hsd2]
        have hlen2 : ¬ (parts ++ [""]).length < 2 := by
          simp only [List.length_append, List.length_cons, List.length_nil]
          omega
        have hpnil : parts ≠ [] := by
          intro hp
          rw [hp] at hlen
          simp at hlen
        have hhead : (parts ++ [""]).headD "" = parts.headD "" := by
          cases parts with
          | nil => exact absurd rfl hpnil
          | cons a t => rfl
        rw [parseWithParts, if_neg hlen2, hhead,
          processParts_append_empty parts 0 ⟨none, none, [], [], []⟩]
        rw [parseWithParts, if_neg hlen] at h
        exact h

/-- Claim C10: empty segments raise no error of their own — a trimmed
statement that parses gains nothing from a properly spaced trailing
delimiter (same ParsedRequest), and a trimmed empty segment is skipped by
the loop while still consuming its positional index, so a URL segment
pushed to position two by an empty segment fails with the
URL-must-be-second error rather than an invalid-part error. -/
theorem c10_empty_segments_skipped_but_indexed :
    (∀ (s : String) (pr : ParsedRequest), jsTrim s = s → parse s = .ok pr →
      parse (s ++ " |") = .ok pr) ∧
    (∀ (p : String) (rest : List String) (i : Nat) (st : PState),
      jsTrim p = "" →
      processParts (p :: rest) i st = processParts rest (i + 1) st) ∧
    parse "HTTP GET | URL https://example.com/x |" =
      parse "HTTP GET | URL https://example.com/x" ∧
    parse "HTTP GET | | URL https://example.com/x" =
      .error "URL keyword must be second" := by
  refine ⟨parse_append_pipe, ?_, by rfl, by rfl⟩
  intro p rest i st hp
  simp only [processParts, hp, if_pos]

/-- Claim C10 witness: appending the trailing delimiter to the plain GET
statement parses to the same request. -/
theorem c10_empty_segments_skipped_but_indexed_witness :
    parse ("HTTP GET | URL https://example.com/x" ++ " |") =
      .ok ⟨"GET", "https://example.com/x", [], [], []⟩ :=
  c10_empty_segments_skipped_but_indexed.1 "HTTP GET | URL https://example.com/x"
    ⟨"GET", "https://example.com/x", [], [], []⟩ rfl rfl

theorem lastChar_append_right (a b : String) (c : Char)
    (hb : b.data.getLast? = some c) : (a ++ b).data.getLast? = some c := by
  rw [strData_append, List.getLast?_append, hb]
  rfl

theorem mapProxyError_ne_target (t : String) (b : Bool) (m : String) :
    mapProxyError t b m ≠ ⟨targetNotLocalhostMsg, "BADREQUEST"⟩ := by
  unfold mapProxyError
  intro he
  split at he
  · injection he with hm hc
    split at hm
    · rename_i hck
      subst hm
      rw [show strContains targetNotLocalhostMsg "Check examples" = false from rfl]
        at hck
      simp at hck
    · have hl := congrArg (fun s => s.data.getLast?) hm
      simp only at hl
      rw [lastChar_append_right m ". Check examples if you need help with the format"
        't' (by decide)] at hl
      exact absurd hl (by decide)
  · split at he
    · injection he with hm hc
      have hl := congrArg (fun s => s.data.getLast?) hm
      simp only at hl
      rw [lastChar_append_right _
        ". Make sure your local server is running and accessible." '.'
        (by decide)] at hl
      exact absurd hl (by decide)
    · split at he
      · split at he
        · injection he with hm hc
          have hl := congrArg (fun s => s.data.getLast?) hm
          simp only at hl
          rw [lastChar_append_right _
            ". Make sure your local server is running and accessible." '.'
            (by decide)] at hl
          exact absurd hl (by decide)
        · split at he
          · injection he with hm hc
            have hl := congrArg (fun s => s.data.getLast?) hm
            simp only at hl
            rw [lastChar_append_right _
              ". Check if the localhost URL is correct." '.' (by decide)] at hl
            exact absurd hl (by decide)
          · split at he
            · injection he with hm hc
              have hl := congrArg (fun s => s.data.getLast?) hm
              simp only at hl
              rw [lastChar_append_right _
                " timed out. The local server might be slow or unresponsive." '.'
                (by decide)] at hl
              exact absurd hl (by decide)
            · injection he with hm hc
              have hl := congrArg (fun s => s.data.head?) hm
              simp only at hl
              rw [show ("Request setup error: " ++ m).data.head? = some 'R' from rfl]
                at hl
              exact absurd hl (by decide)
      · injection he with hm hc
        exact absurd hc (by decide)

/-- Claim C6 (amended): given a non-empty statement and a non-empty
target, the proxy rejects the target with the not-localhost error exactly
when the target lacks the literal prefix http://localhost or
https://localhost; the rejection precedes parsing, since the statement is
arbitrary (even unparsable).  A prefix-matching target whose host is not
actually localhost is accepted (see the counterexample). -/
theorem c6_proxy_target_prefix_check (fs : String → FsEntry)
    (axios : Config → AxiosOutcome) (jar : CookieJar) (reqline target : String)
    (h1 : ¬ reqline = "") (h2 : ¬ target = "") :
    proxyReqline fs axios jar reqline target =
      .error ⟨targetNotLocalhostMsg, "BADREQUEST"⟩ ↔
    ¬ (jsStartsWith target "http://localhost" ||
        jsStartsWith target "https://localhost") = true := by
  constructor
  · intro h hpre
    rw [proxyReqline, if_neg h1, if_neg h2, if_neg (not_not_intro hpre)] at h
    cases hp : parse reqline with
    | error m =>
      rw [hp] at h
      injection h with h
      exact mapProxyError_ne_target target true m h
    | ok pr =>
      rw [hp] at h
      simp only at h
      cases hr : (executeReq fs axios jar
          (toRequestF ⟨pr.method, target ++ urlPathAndSearch pr.url, pr.headers,
            pr.query, pr.body⟩)).result with
      | ok res =>
        rw [hr] at h
        simp at h
      | error m =>
        rw [hr] at h
        injection h with h
        exact mapProxyError_ne_target target false m h
  · intro hnot
    rw [proxyReqline, if_neg h1, if_neg h2, if_pos hnot]

/-- Claim C6 witness: a non-localhost target is rejected with the
not-localhost error before the statement is looked at. -/
theorem c6_proxy_target_prefix_check_witness :
    proxyReqline fsFixture axiosOk200 emptyJar
        "HTTP GET | URL https://example.com/x" "https://api.example.com" =
      .error ⟨targetNotLocalhostMsg, "BADREQUEST"⟩ :=
  (c6_proxy_target_prefix_check fsFixture axiosOk200 emptyJar
    "HTTP GET | URL https://example.com/x" "https://api.example.com"
    (by decide) (by decide)).mpr (by decide)

/-- Claim C6 counterexample: the target http://localhost.evil.com has
host localhost.evil.com, not localhost, yet the proxy accepts it — the
whole call goes through and executes — because the source only checks
the literal prefix. -/
theorem c6_non_localhost_host_accepted :
    (proxyReqline fsFixture axiosOk200 emptyJar
      "HTTP GET | URL https://example.com/x" "http://localhost.evil.com").isOk =
        true ∧
    isLocalhostAuthority "http://localhost.evil.com" = false := by
  exact ⟨rfl, rfl⟩
